import Mathlib

/-!
Verification of the Tetris game engine found in `src/game.rs` (and its
older draft inside `src/main.rs`).  The engine stores every 2-D boolean
matrix in a `Conventional` matrix of the `matrix` crate: a flat vector of
`rows * cols` cells laid out in column-major order, indexed by
`values[col * rows + row]` with no bounds check of its own beyond the
vector's.  An access whose flat index falls outside the vector aborts the
program (a Rust panic); an access whose row index exceeds `rows` but whose
flat index is still inside the vector silently reads a neighbouring
column.  Both behaviours are modelled here: `Grid.get?` returns `none`
exactly when the flat index is outside the backing list, and partial
operations of the engine return `Option` results, `none` standing for a
panic.  Integer positions are Rust `isize` values, modelled by `Int`;
the `as usize` cast is modelled by `usizeOf` (wrapping at 2^64 for
negative inputs, exact for the non-negative inputs the engine produces).
-/

namespace Tetris

/-- Model of Rust's `as usize` cast applied to an `isize` value: exact on
non-negative inputs, two's-complement wrap for negative ones. -/
def usizeOf (x : Int) : Nat :=
  if 0 ≤ x then x.toNat else (2 ^ 64 + x).toNat

/-- A `Conventional<bool>` matrix of the `matrix` crate: dimensions plus a
flat column-major backing vector. -/
structure Grid where
  rows : Nat
  cols : Nat
  data : List Bool
deriving DecidableEq, Repr

/-- The backing vector of a well-formed matrix holds exactly
`rows * cols` cells; every matrix the Rust code constructs satisfies
this. -/
def Grid.wf (g : Grid) : Prop := g.data.length = g.rows * g.cols

instance (g : Grid) : Decidable g.wf := by unfold Grid.wf; infer_instance

/-- Column-major flat index of cell `(i, j)`, as computed by the crate's
`Index` implementation: `values[j * rows + i]`. -/
def Grid.flat (g : Grid) (i j : Nat) : Nat := j * g.rows + i

/-- Read of cell `(i, j)`; `none` models the panic of an out-of-range
vector access. -/
def Grid.get? (g : Grid) (i j : Nat) : Option Bool := g.data[g.flat i j]?

/-- Total read used where the Rust access is always in range. -/
def Grid.cell (g : Grid) (i j : Nat) : Bool := (g.get? i j).getD false

/-- Write of cell `(i, j)`; `none` models the panic of an out-of-range
vector write. -/
def Grid.set? (g : Grid) (i j : Nat) (v : Bool) : Option Grid :=
  if g.flat i j < g.data.length then
    some { g with data := g.data.set (g.flat i j) v }
  else none

/-- Total write used where the Rust write is always in range. -/
def Grid.setCell (g : Grid) (i j : Nat) (v : Bool) : Grid :=
  { g with data := g.data.set (g.flat i j) v }

/-- `Conventional::new(size)`: an all-false matrix. -/
def Grid.new (rows cols : Nat) : Grid :=
  ⟨rows, cols, List.replicate (rows * cols) false⟩

/-- A fresh matrix whose cell `(i, j)` holds `f i j`: the result of the
Rust pattern "allocate a zeroed matrix, then assign every in-range
cell".  Stored column-major, so flat position `k` holds cell
`(k % rows, k / rows)`. -/
def Grid.ofFn (rows cols : Nat) (f : Nat → Nat → Bool) : Grid :=
  ⟨rows, cols, (List.range (rows * cols)).map (fun k => f (k % rows) (k / rows))⟩

/-- `for x in level.iter_mut() { *x = false; }` — clear every cell in
place. -/
def Grid.clearAll (g : Grid) : Grid :=
  { g with data := g.data.map (fun _ => false) }

/-- Number of true cells of a matrix. -/
def Grid.count (g : Grid) : Nat :=
  ∑ i in Finset.range g.rows, ∑ j in Finset.range g.cols, (g.cell i j).toNat

/-- `Shape::rotate`: the clockwise rotation.  The code allocates a new
matrix of dimensions `(width, height)` and sets
`new[(row, col)] = old[(col, new.rows - row - 1)]`, where
`new.rows` is the original width. -/
def Shape.rotate (s : Grid) : Grid :=
  Grid.ofFn s.cols s.rows (fun r c => s.cell c (s.cols - r - 1))

/-- `ShapeInLevel`: a shape plus the level position of its bottom-left
corner, `(row, col)` as `isize` values. -/
structure PlacedShape where
  shape : Grid
  pos : Int × Int
deriving DecidableEq, Repr

/-- `Game::check_shape_out_of_bound`:
`pos.0 < 0 || pos.0 + height > l_height || pos.1 < 0 || pos.1 + width > l_width`. -/
def checkShapeOutOfBound (level : Grid) (s : PlacedShape) : Bool :=
  decide (s.pos.1 < 0) || decide ((level.rows : Int) < s.pos.1 + s.shape.rows) ||
  decide (s.pos.2 < 0) || decide ((level.cols : Int) < s.pos.2 + s.shape.cols)

/-- The cell coordinates `(hi, wi)` of a shape in the iteration order of
the engine's nested loops (`hi` outer, `wi` inner). -/
def scanPairs (s : Grid) : List (Nat × Nat) :=
  (List.range s.rows).flatMap (fun hi => (List.range s.cols).map (fun wi => (hi, wi)))

/-- The scan of `Game::check_collision`: for each shape cell in loop
order, if the shape cell is true, read the level cell at the cast
position; return `true` at the first true level cell; `none` models the
panic of an access outside the backing vector. -/
def collideScan (level : Grid) (s : PlacedShape) : List (Nat × Nat) → Option Bool
  | [] => some false
  | (hi, wi) :: rest =>
    if s.shape.cell hi wi then
      match level.get? (usizeOf (s.pos.1 + hi)) (usizeOf (s.pos.2 + wi)) with
      | none => none
      | some true => some true
      | some false => collideScan level s rest
    else collideScan level s rest

/-- `Game::check_collision`. -/
def checkCollision (level : Grid) (s : PlacedShape) : Option Bool :=
  collideScan level s (scanPairs s.shape)

/-- The level positions (in `isize` coordinates, before the cast) that one
`check_collision` call reads, in order; the scan stops after a read that
found a collision or hit the end of the backing vector. -/
def collideTrace (level : Grid) (s : PlacedShape) : List (Nat × Nat) → List (Int × Int)
  | [] => []
  | (hi, wi) :: rest =>
    if s.shape.cell hi wi then
      match level.get? (usizeOf (s.pos.1 + hi)) (usizeOf (s.pos.2 + wi)) with
      | none => [(s.pos.1 + hi, s.pos.2 + wi)]
      | some true => [(s.pos.1 + hi, s.pos.2 + wi)]
      | some false => (s.pos.1 + hi, s.pos.2 + wi) :: collideTrace level s rest
    else collideTrace level s rest

/-- The combined test `!check_shape_out_of_bound(s) && !check_collision(s)`
with Rust's short-circuit `&&`: when the bounds check fails the collision
check is never evaluated. -/
def tryPlace (level : Grid) (s : PlacedShape) : Option Bool :=
  if checkShapeOutOfBound level s then some false
  else (checkCollision level s).map (fun c => !c)

/-- The locking loop of `Game::drop_shape`: write `true` into the level at
every occupied shape cell's cast position. -/
def lockFold (s : PlacedShape) : List (Nat × Nat) → Grid → Option Grid
  | [], lvl => some lvl
  | (hi, wi) :: rest, lvl =>
    if s.shape.cell hi wi then
      match lvl.set? (usizeOf (s.pos.1 + hi)) (usizeOf (s.pos.2 + wi)) true with
      | none => none
      | some lvl' => lockFold s rest lvl'
    else lockFold s rest lvl

/-- Lock a placed shape into the level (the write-back half of
`Game::drop_shape`). -/
def lockShape (level : Grid) (s : PlacedShape) : Option Grid :=
  lockFold s (scanPairs s.shape) level

/-- Row `r` is entirely true: `(0..columns).map(|col| level[(row, col)]).all(identity)`. -/
def rowFull (g : Grid) (r : Nat) : Bool :=
  (List.range g.cols).all (fun c => g.cell r c)

/-- The queue `rows_to_eliminate` built by `Game::eliminate_rows`. -/
def fullRows (g : Grid) : List Nat :=
  (List.range g.rows).filter (fun r => rowFull g r)

/-- The inner `while` of the rebuild loop: pop the queue while its front
equals `row_src`, incrementing `row_src`. -/
def elimSkip : List Nat → Nat → List Nat × Nat
  | [], rowSrc => ([], rowSrc)
  | r :: rest, rowSrc =>
    if r = rowSrc then elimSkip rest (rowSrc + 1) else (r :: rest, rowSrc)

/-- `for col in 0..columns { new[(row, col)] = level[(row_src, col)] }`. -/
def copyRowGo (src : Grid) (row rowSrc : Nat) : List Nat → Grid → Option Grid
  | [], dst => some dst
  | c :: rest, dst =>
    match src.get? rowSrc c with
    | none => none
    | some v =>
      match dst.set? row c v with
      | none => none
      | some dst' => copyRowGo src row rowSrc rest dst'

/-- Copy source row `rowSrc` into destination row `row`. -/
def copyRow (src : Grid) (row rowSrc : Nat) (dst : Grid) : Option Grid :=
  copyRowGo src row rowSrc (List.range src.cols) dst

/-- The rebuild loop of `Game::eliminate_rows`: iterate `row` over
`0..rows`, skipping eliminated source rows, copying a source row into each
destination row, and breaking once `row_src` passes the last row. -/
def elimLoop (src : Grid) : List Nat → List Nat → Nat → Grid → Option Grid
  | [], _, _, acc => some acc
  | row :: rest, toElim, rowSrc, acc =>
    let p := elimSkip toElim rowSrc
    match copyRow src row p.2 acc with
    | none => none
    | some acc' =>
      if src.rows ≤ p.2 + 1 then some acc'
      else elimLoop src rest p.1 (p.2 + 1) acc'

/-- `Game::eliminate_rows`: a no-op when no row is full, otherwise the
rebuild into a freshly allocated matrix of the same dimensions. -/
def eliminateRows (g : Grid) : Option Grid :=
  if fullRows g = [] then some g
  else elimLoop g (List.range g.rows) (fullRows g) 0 (Grid.new g.rows g.cols)

/-- A shape built from its rows as listed in source order, row `0` first:
the `matrix!` literal turns the listed rows into the column-major backing
vector handed to `Conventional::from_vec`, so listed row `i` becomes
matrix row `i`. -/
def buildShape (rowsList : List (List Bool)) : Grid :=
  Grid.ofFn rowsList.length ((rowsList.headD []).length)
    (fun i j => ((((rowsList.get? i).getD []).get? j).getD false))

/-- The row literals of the seven `shape!` invocations of
`ShapesFactory::new` in `src/game.rs`, in the textual order of each
invocation (square, stick, J, L, S, Z, T). -/
def gameListedShapes : List (List (List Bool)) :=
  [ [[true, true], [true, true]],
    [[true], [true], [true], [true]],
    [[true, false, false], [true, true, true]],
    [[false, false, true], [true, true, true]],
    [[false, true, true], [true, true, false]],
    [[true, true, false], [false, true, true]],
    [[false, true, false], [true, true, true]] ]

/-- The row literals of the seven `matrix!` invocations of
`game::ShapesFactory::new` in `src/main.rs`, in textual order. -/
def mainListedShapes : List (List (List Bool)) :=
  [ [[true, true], [true, true]],
    [[true], [true], [true], [true]],
    [[true, true, true], [true, false, false]],
    [[true, true, true], [false, false, true]],
    [[true, true, false], [false, true, true]],
    [[false, true, true], [true, true, false]],
    [[true, true, true], [false, true, false]] ]

/-- The catalog of `src/game.rs`: the `shape!` macro accumulates the
listed rows in reverse order before handing them to `matrix!`, so each
shape is built from its reversed row list. -/
def gameCatalog : List Grid :=
  gameListedShapes.map (fun l => buildShape l.reverse)

/-- The catalog of `src/main.rs`: direct `matrix!` literals. -/
def mainCatalog : List Grid :=
  mainListedShapes.map buildShape

/-- The canonical catalog; `src/game.rs` is the authoritative draft. -/
def shapesList : List Grid := gameCatalog

/-- The loop of `Game::create_new_shape`: move the candidate one row up
while it collides.  The fuel is an upper bound on the iterations the Rust
loop can perform before it either exits or aborts: every iteration moves
the scan's first read one flat position further, so after
`data.length + rows` iterations the first read is past the backing vector. -/
def spawnLoop (level : Grid) : Nat → PlacedShape → Option PlacedShape
  | 0, _ => none
  | fuel + 1, s =>
    match checkCollision level s with
    | none => none
    | some false => some s
    | some true => spawnLoop level fuel { s with pos := (s.pos.1 + 1, s.pos.2) }

/-- Fuel bound for `spawnLoop`; see its doc comment. -/
def spawnFuel (level : Grid) : Nat := level.data.length + level.rows + 2

/-- The placement `create_new_shape` computes before its collision loop:
catalog shape `pick % 7` at `((rows - height) as isize, columns as isize / 2)`. -/
def spawnStartWith (cat : List Grid) (pick : Nat) (level : Grid) : PlacedShape :=
  let shape := (cat[pick % cat.length]?).getD (Grid.new 0 0)
  { shape := shape,
    pos := (((level.rows - shape.rows : Nat) : Int), ((level.cols / 2 : Nat) : Int)) }

/-- `Game::create_new_shape` with the random choice injected as `pick`:
clone catalog shape `pick % 7`, place it centered at the top, then move it
up while it collides.  The `usize` subtraction `rows - height` aborts when
the shape is taller than the level. -/
def createNewShapeWith (cat : List Grid) (pick : Nat) (level : Grid) : Option PlacedShape :=
  let s := spawnStartWith cat pick level
  if s.shape.rows ≤ level.rows then spawnLoop level (spawnFuel level) s
  else none

/-- The level positions read by the collision checks of one
`create_new_shape` loop run, in order. -/
def spawnLoopTrace (level : Grid) : Nat → PlacedShape → List (Int × Int)
  | 0, _ => []
  | fuel + 1, s =>
    collideTrace level s (scanPairs s.shape) ++
      (match checkCollision level s with
       | some true => spawnLoopTrace level fuel { s with pos := (s.pos.1 + 1, s.pos.2) }
       | _ => [])

/-- The initial spawn placement of the authoritative draft. -/
def spawnStart (pick : Nat) (level : Grid) : PlacedShape :=
  spawnStartWith shapesList pick level

/-- The level positions read by the spawn loop of `create_new_shape` for
catalog shape `pick % 7` on the given level. -/
def spawnAccesses (pick : Nat) (level : Grid) : List (Int × Int) :=
  let s := spawnStart pick level
  if s.shape.rows ≤ level.rows then spawnLoopTrace level (spawnFuel level) s
  else []

/-- `game::State`. -/
inductive State
  | Init
  | Playing
  | Paused
  | End
deriving DecidableEq, Repr

/-- `game::Event`. -/
inductive Event
  | Start
  | Left
  | Right
  | Rotate
  | Pause
deriving DecidableEq, Repr

/-- `game::Game`: the current placed shape (absent before the first
spawn), the state, and the level matrix.  The shape factory is a constant
(`shapesList`); the random pick it would make is passed to each operation
that spawns. -/
structure Game where
  shape : Option PlacedShape
  state : State
  level : Grid
deriving DecidableEq, Repr

/-- `Game::new(size)`. -/
def Game.new (rows cols : Nat) : Game :=
  ⟨none, State.Init, Grid.new rows cols⟩

/-- `Game::move_shape(dir)`: valid only while `Playing`; computes the
candidate position, accepts it iff it is neither out of bounds nor
colliding, otherwise restores the original position; returns whether the
move was accepted.  `none` models the `unwrap` panic when no shape
exists. -/
def moveShape (dir : Int × Int) (g : Game) : Option (Game × Bool) :=
  if g.state = State.Playing then
    match g.shape with
    | none => none
    | some s =>
      let s' : PlacedShape := { s with pos := (s.pos.1 + dir.1, s.pos.2 + dir.2) }
      match tryPlace g.level s' with
      | none => none
      | some true => some ({ g with shape := some s' }, true)
      | some false => some ({ g with shape := some s }, false)
  else some (g, false)

/-- `Game::reset`: clear the level in place, spawn a new shape, switch to
`Playing`. -/
def resetWith (cat : List Grid) (pick : Nat) (g : Game) : Option Game :=
  let lvl := g.level.clearAll
  match createNewShapeWith cat pick lvl with
  | none => none
  | some s => some { shape := some s, state := State.Playing, level := lvl }

/-- `Game::handle_event`; the returned `Bool` is the Rust return value
(always `true` in this draft). -/
def handleEventWith (cat : List Grid) (e : Event) (pick : Nat) (g : Game) :
    Option (Game × Bool) :=
  match e with
  | Event.Start =>
    match g.state with
    | State.Init => (resetWith cat pick g).map (fun g' => (g', true))
    | State.End => (resetWith cat pick g).map (fun g' => (g', true))
    | State.Paused => some ({ g with state := State.Playing }, true)
    | State.Playing => some (g, true)
  | Event.Left =>
    if g.state ≠ State.Playing then some (g, true)
    else (moveShape (0, -1) g).map (fun p => (p.1, true))
  | Event.Right =>
    if g.state ≠ State.Playing then some (g, true)
    else (moveShape (0, 1) g).map (fun p => (p.1, true))
  | Event.Pause =>
    some (if g.state = State.Playing then { g with state := State.Paused } else g, true)
  | Event.Rotate =>
    if g.state ≠ State.Playing then some (g, true)
    else
      match g.shape with
      | none => none
      | some s =>
        let s' : PlacedShape := { s with shape := Shape.rotate s.shape }
        match tryPlace g.level s' with
        | none => none
        | some true => some ({ g with shape := some s' }, true)
        | some false => some (g, true)

/-- The tail of `Game::tick` once the downward move has failed: the shape
has been taken out of its slot and is locked into the level, full rows are
eliminated, a new shape is spawned, and the state becomes `End` iff the
new shape is out of bounds or colliding (with Rust's short-circuit `||`,
so the collision check runs only when the bounds check passes). -/
def tickLocked (cat : List Grid) (pick : Nat) (lvl0 : Grid) (s : PlacedShape) : Option Game :=
  match lockShape lvl0 s with
  | none => none
  | some lvl =>
    match eliminateRows lvl with
    | none => none
    | some lvl2 =>
      match createNewShapeWith cat pick lvl2 with
      | none => none
      | some ns =>
        if checkShapeOutOfBound lvl2 ns then
          some { shape := some ns, state := State.End, level := lvl2 }
        else
          match checkCollision lvl2 ns with
          | none => none
          | some true => some { shape := some ns, state := State.End, level := lvl2 }
          | some false => some { shape := some ns, state := State.Playing, level := lvl2 }

/-- `Game::tick`: a no-op unless `Playing`; otherwise try to drop the
shape one row and stop if that succeeded; on failure run the
lock/eliminate/spawn sequence of `tickLocked`. -/
def tickWith (cat : List Grid) (pick : Nat) (g : Game) : Option Game :=
  if g.state ≠ State.Playing then some g
  else
    match moveShape (-1, 0) g with
    | none => none
    | some (g', true) => some g'
    | some (g', false) =>
      match g'.shape with
      | none => none
      | some s => tickLocked cat pick g'.level s

/-- `handle_event` of the authoritative draft. -/
def handleEvent (e : Event) (pick : Nat) (g : Game) : Option (Game × Bool) :=
  handleEventWith shapesList e pick g

/-- `tick` of the authoritative draft. -/
def tick (pick : Nat) (g : Game) : Option Game :=
  tickWith shapesList pick g

/-- `create_new_shape` of the authoritative draft. -/
def createNewShape (pick : Nat) (level : Grid) : Option PlacedShape :=
  createNewShapeWith shapesList pick level

/-- The inner loop of `Game::render`: iterate `wi` over the shape's
columns, breaking out of the row when the cast level column passes the
right edge (a negative `isize` casts to a huge `usize`, so a negative
column also breaks), and setting the level cell for occupied shape
cells. -/
def renderCols (level : Grid) (s : PlacedShape) (hi lrow : Nat) :
    Nat → Nat → Grid → Grid
  | _, 0, acc => acc
  | wi, fuel + 1, acc =>
    let lc : Int := s.pos.2 + wi
    if lc < 0 ∨ (level.cols : Int) ≤ lc then acc
    else
      renderCols level s hi lrow (wi + 1) fuel
        (if s.shape.cell hi wi then acc.setCell lrow lc.toNat true else acc)

/-- The outer loop of `Game::render`: iterate `hi` over the shape's rows,
breaking out of the whole loop when the cast level row passes the top
edge (again, a negative row also breaks). -/
def renderRows (level : Grid) (s : PlacedShape) : Nat → Nat → Grid → Grid
  | _, 0, acc => acc
  | hi, fuel + 1, acc =>
    let lr : Int := s.pos.1 + hi
    if lr < 0 ∨ (level.rows : Int) ≤ lr then acc
    else
      renderRows level s (hi + 1) fuel
        (renderCols level s hi lr.toNat 0 s.shape.cols acc)

/-- The overlay `Game::render` computes for one placed shape on a cloned
level. -/
def renderPlaced (level : Grid) (s : PlacedShape) : Grid :=
  renderRows level s 0 s.shape.rows level

/-- `Game::render`; `none` models the `unwrap` panic when no shape
exists. -/
def Game.render (g : Game) : Option Grid :=
  g.shape.map (fun s => renderPlaced g.level s)

/-- The states reachable from `g0` through any sequence of `handle_event`
and `tick` calls (with arbitrary random picks) that complete without
panicking. -/
inductive Reach (g0 : Game) : Game → Prop
  | refl : Reach g0 g0
  | stepEvent {g g' : Game} {e : Event} {pick : Nat} {b : Bool} :
      Reach g0 g → handleEvent e pick g = some (g', b) → Reach g0 g'
  | stepTick {g g' : Game} {pick : Nat} :
      Reach g0 g → tick pick g = some g' → Reach g0 g'

section GridLemmas

theorem usizeOf_nonneg {x : Int} (h : 0 ≤ x) : usizeOf x = x.toNat := by
  simp [usizeOf, h]

theorem flat_lt {g : Grid} {i j : Nat} (hi : i < g.rows) (hj : j < g.cols) :
    g.flat i j < g.rows * g.cols := by
  have h1 : g.flat i j < (j + 1) * g.rows := by
    unfold Grid.flat; rw [Nat.succ_mul]; omega
  have h2 : (j + 1) * g.rows ≤ g.cols * g.rows :=
    Nat.mul_le_mul_right _ hj
  rw [Nat.mul_comm g.rows g.cols]
  exact lt_of_lt_of_le h1 h2

theorem flat_lt' {g : Grid} {i j : Nat} (hw : g.wf) (hi : i < g.rows) (hj : j < g.cols) :
    g.flat i j < g.data.length := by
  rw [hw]; exact flat_lt hi hj

theorem get?_eq_some_cell {g : Grid} {i j : Nat} (hw : g.wf) (hi : i < g.rows)
    (hj : j < g.cols) : g.get? i j = some (g.cell i j) := by
  have hlt := flat_lt' hw hi hj
  unfold Grid.cell Grid.get?
  rw [List.getElem?_eq_getElem hlt]
  rfl

@[simp] theorem ofFn_rows (rows cols : Nat) (f : Nat → Nat → Bool) :
    (Grid.ofFn rows cols f).rows = rows := rfl

@[simp] theorem ofFn_cols (rows cols : Nat) (f : Nat → Nat → Bool) :
    (Grid.ofFn rows cols f).cols = cols := rfl

theorem ofFn_wf (rows cols : Nat) (f : Nat → Nat → Bool) :
    (Grid.ofFn rows cols f).wf := by
  simp [Grid.ofFn, Grid.wf]

theorem flat_mod {g : Grid} {i j : Nat} (hi : i < g.rows) : g.flat i j % g.rows = i := by
  unfold Grid.flat
  rw [Nat.add_comm, Nat.add_mul_mod_self_right]
  exact Nat.mod_eq_of_lt hi

theorem flat_div {g : Grid} {i j : Nat} (hi : i < g.rows) : g.flat i j / g.rows = j := by
  have hpos : 0 < g.rows := lt_of_le_of_lt (Nat.zero_le i) hi
  unfold Grid.flat
  rw [Nat.add_comm, Nat.add_mul_div_right _ _ hpos, Nat.div_eq_of_lt hi]
  omega

theorem get?_ofFn {rows cols : Nat} {f : Nat → Nat → Bool} {i j : Nat}
    (hi : i < rows) (hj : j < cols) :
    (Grid.ofFn rows cols f).get? i j = some (f i j) := by
  have hlt : (Grid.ofFn rows cols f).flat i j < rows * cols :=
    flat_lt (g := Grid.ofFn rows cols f) hi hj
  have hmod : (Grid.ofFn rows cols f).flat i j % rows = i :=
    flat_mod (g := Grid.ofFn rows cols f) hi
  have hdiv : (Grid.ofFn rows cols f).flat i j / rows = j :=
    flat_div (g := Grid.ofFn rows cols f) hi
  show ((List.range (rows * cols)).map
      (fun k => f (k % rows) (k / rows)))[(Grid.ofFn rows cols f).flat i j]? = some (f i j)
  rw [List.getElem?_map, List.getElem?_range hlt, Option.map_some', hmod, hdiv]

theorem cell_ofFn {rows cols : Nat} {f : Nat → Nat → Bool} {i j : Nat}
    (hi : i < rows) (hj : j < cols) :
    (Grid.ofFn rows cols f).cell i j = f i j := by
  simp [Grid.cell, get?_ofFn hi hj]

@[simp] theorem new_rows (rows cols : Nat) : (Grid.new rows cols).rows = rows := rfl

@[simp] theorem new_cols (rows cols : Nat) : (Grid.new rows cols).cols = cols := rfl

theorem new_wf (rows cols : Nat) : (Grid.new rows cols).wf := by
  simp [Grid.new, Grid.wf]

theorem new_get? {rows cols i j : Nat} (hi : i < rows) (hj : j < cols) :
    (Grid.new rows cols).get? i j = some false := by
  have hlt : (Grid.new rows cols).flat i j < rows * cols :=
    flat_lt (g := Grid.new rows cols) hi hj
  show (List.replicate (rows * cols) false)[(Grid.new rows cols).flat i j]? = some false
  rw [List.getElem?_replicate, if_pos hlt]

@[simp] theorem new_cell (rows cols i j : Nat) : (Grid.new rows cols).cell i j = false := by
  show ((List.replicate (rows * cols) false)[(Grid.new rows cols).flat i j]?).getD false = false
  rw [List.getElem?_replicate]
  split <;> simp

@[simp] theorem clearAll_rows (g : Grid) : g.clearAll.rows = g.rows := rfl

@[simp] theorem clearAll_cols (g : Grid) : g.clearAll.cols = g.cols := rfl

theorem clearAll_wf {g : Grid} (hw : g.wf) : g.clearAll.wf := by
  simpa [Grid.clearAll, Grid.wf] using hw

@[simp] theorem clearAll_cell (g : Grid) (i j : Nat) : g.clearAll.cell i j = false := by
  show ((g.data.map (fun _ => false))[j * g.rows + i]?).getD false = false
  rw [List.getElem?_map]
  cases g.data[j * g.rows + i]? <;> simp

theorem clearAll_get? {g : Grid} {i j : Nat} (hw : g.wf) (hi : i < g.rows)
    (hj : j < g.cols) : g.clearAll.get? i j = some false := by
  have := get?_eq_some_cell (g := g.clearAll) (clearAll_wf hw) (by simpa using hi) (by simpa using hj)
  rw [this, clearAll_cell]

theorem set?_isSome {g : Grid} {i j : Nat} {v : Bool} (hw : g.wf) (hi : i < g.rows)
    (hj : j < g.cols) : g.set? i j v = some (g.setCell i j v) := by
  unfold Grid.set? Grid.setCell
  rw [if_pos (flat_lt' hw hi hj)]

@[simp] theorem setCell_rows (g : Grid) (i j : Nat) (v : Bool) :
    (g.setCell i j v).rows = g.rows := rfl

@[simp] theorem setCell_cols (g : Grid) (i j : Nat) (v : Bool) :
    (g.setCell i j v).cols = g.cols := rfl

@[simp] theorem setCell_length (g : Grid) (i j : Nat) (v : Bool) :
    (g.setCell i j v).data.length = g.data.length := by
  simp [Grid.setCell]

theorem set?_some_elim {g g' : Grid} {i j : Nat} {v : Bool} (h : g.set? i j v = some g') :
    g' = g.setCell i j v ∧ g.flat i j < g.data.length := by
  unfold Grid.set? at h
  split at h
  · exact ⟨(Option.some_inj.1 h).symm, by assumption⟩
  · exact Option.noConfusion h

theorem setCell_wf {g : Grid} {i j : Nat} {v : Bool} (hw : g.wf) :
    (g.setCell i j v).wf := by
  simpa [Grid.setCell, Grid.wf] using hw

theorem cell_setCell {g : Grid} (i j i' j' : Nat) (v : Bool) :
    (g.setCell i j v).cell i' j' =
      if g.flat i j = g.flat i' j' ∧ g.flat i j < g.data.length then v
      else g.cell i' j' := by
  show ((g.data.set (g.flat i j) v)[j' * g.rows + i']?).getD false = _
  have hflat : j' * g.rows + i' = g.flat i' j' := rfl
  rw [hflat, List.getElem?_set]
  by_cases h1 : g.flat i j = g.flat i' j'
  · by_cases h2 : g.flat i j < g.data.length
    · rw [if_pos h1, if_pos (h1 ▸ h2), if_pos ⟨h1, h2⟩]
      rfl
    · rw [if_pos h1, if_neg (h1 ▸ h2), if_neg (fun hc => h2 hc.2)]
      unfold Grid.cell Grid.get?
      rw [List.getElem?_eq_none (by omega)]
  · rw [if_neg h1, if_neg (fun hc => h1 hc.1)]
    rfl

theorem flat_inj {g : Grid} {i j i' j' : Nat} (hi : i < g.rows) (hi' : i' < g.rows)
    (h : g.flat i j = g.flat i' j') : i = i' ∧ j = j' := by
  have h1 := flat_mod (g := g) (j := j) hi
  have h2 := flat_mod (g := g) (j := j') hi'
  have h3 := flat_div (g := g) (j := j) hi
  have h4 := flat_div (g := g) (j := j') hi'
  rw [h] at h1 h3
  exact ⟨h1.symm.trans h2, h3.symm.trans h4⟩

theorem eq_ofFn_self {g : Grid} (hw : g.wf) : g = Grid.ofFn g.rows g.cols g.cell := by
  have hlen : g.data.length = g.rows * g.cols := hw
  have hdata : g.data =
      (List.range (g.rows * g.cols)).map (fun k => g.cell (k % g.rows) (k / g.rows)) := by
    apply List.ext_getElem?
    intro k
    rw [List.getElem?_map]
    by_cases hk : k < g.rows * g.cols
    · rw [List.getElem?_range hk]
      have hk' : k < g.data.length := by omega
      rw [List.getElem?_eq_getElem hk']
      have hdm := Nat.div_add_mod k g.rows
      rw [Nat.mul_comm] at hdm
      have hflat : g.flat (k % g.rows) (k / g.rows) = k := hdm
      have hcell : g.cell (k % g.rows) (k / g.rows) = g.data[k] := by
        unfold Grid.cell Grid.get?
        rw [hflat, List.getElem?_eq_getElem hk']
        rfl
      rw [Option.map_some']
      rw [hcell]
    · rw [List.getElem?_eq_none (l := g.data) (by omega),
        List.getElem?_eq_none (by simpa using Nat.le_of_not_lt hk)]
      rfl
  show (⟨g.rows, g.cols, g.data⟩ : Grid) = Grid.ofFn g.rows g.cols g.cell
  unfold Grid.ofFn
  rw [hdata]

theorem grid_ext {g h : Grid} (hwg : g.wf) (hwh : h.wf) (hr : g.rows = h.rows)
    (hc : g.cols = h.cols)
    (hcell : ∀ i j, i < g.rows → j < g.cols → g.cell i j = h.cell i j) : g = h := by
  rw [eq_ofFn_self hwg, eq_ofFn_self hwh, ← hr, ← hc]
  unfold Grid.ofFn
  simp only [Grid.mk.injEq, true_and]
  apply List.map_congr_left
  intro k hk
  rw [List.mem_range] at hk
  have hrpos : 0 < g.rows := by
    rcases Nat.eq_zero_or_pos g.rows with h0 | h0
    · rw [h0] at hk; simp at hk
    · exact h0
  exact hcell _ _ (Nat.mod_lt _ hrpos) (Nat.div_lt_of_lt_mul hk)

end GridLemmas

section RotateLemmas

@[simp] theorem rotate_rows (s : Grid) : (Shape.rotate s).rows = s.cols := rfl

@[simp] theorem rotate_cols (s : Grid) : (Shape.rotate s).cols = s.rows := rfl

theorem rotate_wf (s : Grid) : (Shape.rotate s).wf := ofFn_wf _ _ _

theorem rotate_cell {s : Grid} {r c : Nat} (hr : r < s.cols) (hc : c < s.rows) :
    (Shape.rotate s).cell r c = s.cell c (s.cols - r - 1) := cell_ofFn hr hc

theorem rotate_rotate_cell {s : Grid} {r c : Nat} (hr : r < s.rows) (hc : c < s.cols) :
    (Shape.rotate (Shape.rotate s)).cell r c =
      s.cell (s.rows - r - 1) (s.cols - c - 1) := by
  rw [rotate_cell (s := Shape.rotate s) (by simpa using hr) (by simpa using hc)]
  simp only [rotate_cols]
  rw [rotate_cell (s := s) hc (by omega)]

theorem rotate_four {s : Grid} (hw : s.wf) :
    Shape.rotate (Shape.rotate (Shape.rotate (Shape.rotate s))) = s := by
  apply grid_ext (rotate_wf _) hw (by simp) (by simp)
  intro i j hi hj
  simp only [rotate_rows, rotate_cols] at hi hj
  rw [rotate_rotate_cell (s := Shape.rotate (Shape.rotate s)) (by simpa using hi)
    (by simpa using hj)]
  simp only [rotate_rows, rotate_cols]
  rw [rotate_rotate_cell (s := s) (by omega) (by omega)]
  congr 1 <;> omega

theorem rotate_count (s : Grid) : (Shape.rotate s).count = s.count := by
  unfold Grid.count
  calc ∑ r in Finset.range (Shape.rotate s).rows,
        ∑ c in Finset.range (Shape.rotate s).cols, ((Shape.rotate s).cell r c).toNat
      = ∑ r in Finset.range s.cols, ∑ c in Finset.range s.rows,
          (s.cell c (s.cols - r - 1)).toNat := by
        apply Finset.sum_congr (by simp)
        intro r hr
        apply Finset.sum_congr (by simp)
        intro c hc
        rw [Finset.mem_range] at hr hc
        rw [rotate_cell (by simpa using hr) (by simpa using hc)]
    _ = ∑ r in Finset.range s.cols, ∑ c in Finset.range s.rows, (s.cell c r).toNat := by
        have hrefl := Finset.sum_range_reflect
          (fun r => ∑ c in Finset.range s.rows, (s.cell c r).toNat) s.cols
        calc ∑ r in Finset.range s.cols, ∑ c in Finset.range s.rows,
              (s.cell c (s.cols - r - 1)).toNat
            = ∑ r in Finset.range s.cols, ∑ c in Finset.range s.rows,
                (s.cell c (s.cols - 1 - r)).toNat := by
              apply Finset.sum_congr rfl
              intro r _
              rw [Nat.sub_right_comm]
          _ = ∑ r in Finset.range s.cols, ∑ c in Finset.range s.rows, (s.cell c r).toNat :=
              hrefl
    _ = ∑ c in Finset.range s.rows, ∑ r in Finset.range s.cols, (s.cell c r).toNat :=
        Finset.sum_comm

end RotateLemmas

section CollisionLemmas

theorem mem_scanPairs {s : Grid} {p : Nat × Nat} :
    p ∈ scanPairs s ↔ p.1 < s.rows ∧ p.2 < s.cols := by
  rcases p with ⟨a, b⟩
  simp [scanPairs, List.mem_flatMap, List.mem_map, List.mem_range]

theorem oob_false_iff {level : Grid} {s : PlacedShape} :
    checkShapeOutOfBound level s = false ↔
      0 ≤ s.pos.1 ∧ s.pos.1 + s.shape.rows ≤ (level.rows : Int) ∧
      0 ≤ s.pos.2 ∧ s.pos.2 + s.shape.cols ≤ (level.cols : Int) := by
  unfold checkShapeOutOfBound
  simp only [Bool.or_eq_false_iff, decide_eq_false_iff_not, not_lt]
  tauto

theorem access_in_range {level : Grid} {s : PlacedShape} (hw : level.wf)
    (hoob : checkShapeOutOfBound level s = false) {hi wi : Nat}
    (hhi : hi < s.shape.rows) (hwi : wi < s.shape.cols) :
    usizeOf (s.pos.1 + hi) = (s.pos.1 + hi).toNat ∧
    usizeOf (s.pos.2 + wi) = (s.pos.2 + wi).toNat ∧
    usizeOf (s.pos.1 + hi) < level.rows ∧ usizeOf (s.pos.2 + wi) < level.cols ∧
    level.get? (usizeOf (s.pos.1 + hi)) (usizeOf (s.pos.2 + wi)) =
      some (level.cell (usizeOf (s.pos.1 + hi)) (usizeOf (s.pos.2 + wi))) := by
  rw [oob_false_iff] at hoob
  obtain ⟨h1, h2, h3, h4⟩ := hoob
  have e1 : usizeOf (s.pos.1 + hi) = (s.pos.1 + hi).toNat := usizeOf_nonneg (by omega)
  have e2 : usizeOf (s.pos.2 + wi) = (s.pos.2 + wi).toNat := usizeOf_nonneg (by omega)
  have hr : usizeOf (s.pos.1 + hi) < level.rows := by rw [e1]; omega
  have hc : usizeOf (s.pos.2 + wi) < level.cols := by rw [e2]; omega
  exact ⟨e1, e2, hr, hc, get?_eq_some_cell hw hr hc⟩

theorem collideScan_all_false {level : Grid} {s : PlacedShape} {l : List (Nat × Nat)}
    (h : ∀ p ∈ l, s.shape.cell p.1 p.2 = true →
      level.get? (usizeOf (s.pos.1 + p.1)) (usizeOf (s.pos.2 + p.2)) = some false) :
    collideScan level s l = some false := by
  induction l with
  | nil => rfl
  | cons p rest ih =>
    rcases p with ⟨hi, wi⟩
    show collideScan level s ((hi, wi) :: rest) = some false
    unfold collideScan
    by_cases hc : s.shape.cell hi wi
    · rw [if_pos hc, h (hi, wi) (List.mem_cons_self _ _) hc]
      exact ih (fun q hq hcq => h q (List.mem_cons_of_mem _ hq) hcq)
    · rw [if_neg hc]
      exact ih (fun q hq hcq => h q (List.mem_cons_of_mem _ hq) hcq)

theorem collideScan_false_elim {level : Grid} {s : PlacedShape} {l : List (Nat × Nat)}
    (h : collideScan level s l = some false) :
    ∀ p ∈ l, s.shape.cell p.1 p.2 = true →
      level.get? (usizeOf (s.pos.1 + p.1)) (usizeOf (s.pos.2 + p.2)) = some false := by
  induction l with
  | nil => intro p hp; exact absurd hp (List.not_mem_nil _)
  | cons q rest ih =>
    rcases q with ⟨hi, wi⟩
    intro p hp hcell
    unfold collideScan at h
    by_cases hc : s.shape.cell hi wi
    · rw [if_pos hc] at h
      rcases hread : level.get? (usizeOf (s.pos.1 + hi)) (usizeOf (s.pos.2 + wi)) with _ | b
      · rw [hread] at h; exact Option.noConfusion h
      · rw [hread] at h
        cases b with
        | true => simp at h
        | false =>
          rcases List.mem_cons.1 hp with hq | hq
          · subst hq; exact hread
          · exact ih h p hq hcell
    · rw [if_neg hc] at h
      rcases List.mem_cons.1 hp with hq | hq
      · subst hq; exact absurd hcell (by simpa using hc)
      · exact ih h p hq hcell

theorem collideScan_isSome {level : Grid} {s : PlacedShape} {l : List (Nat × Nat)}
    (h : ∀ p ∈ l, s.shape.cell p.1 p.2 = true →
      (level.get? (usizeOf (s.pos.1 + p.1)) (usizeOf (s.pos.2 + p.2))).isSome) :
    ∃ b, collideScan level s l = some b := by
  induction l with
  | nil => exact ⟨false, rfl⟩
  | cons q rest ih =>
    rcases q with ⟨hi, wi⟩
    show ∃ b, collideScan level s ((hi, wi) :: rest) = some b
    unfold collideScan
    by_cases hc : s.shape.cell hi wi
    · rw [if_pos hc]
      rcases hread : level.get? (usizeOf (s.pos.1 + hi)) (usizeOf (s.pos.2 + wi)) with _ | b
      · have := h (hi, wi) (List.mem_cons_self _ _) hc
        rw [hread] at this; exact absurd this (by simp)
      · cases b with
        | true => exact ⟨true, rfl⟩
        | false => exact ih (fun q hq hcq => h q (List.mem_cons_of_mem _ hq) hcq)
    · rw [if_neg hc]
      exact ih (fun q hq hcq => h q (List.mem_cons_of_mem _ hq) hcq)

theorem checkCollision_isSome {level : Grid} {s : PlacedShape} (hw : level.wf)
    (hoob : checkShapeOutOfBound level s = false) :
    ∃ b, checkCollision level s = some b := by
  apply collideScan_isSome
  intro p hp _
  rw [mem_scanPairs] at hp
  rw [(access_in_range hw hoob hp.1 hp.2).2.2.2.2]
  simp

theorem checkCollision_false_cells {level : Grid} {s : PlacedShape} (hw : level.wf)
    (hoob : checkShapeOutOfBound level s = false)
    (h : checkCollision level s = some false) :
    ∀ hi wi, hi < s.shape.rows → wi < s.shape.cols → s.shape.cell hi wi = true →
      level.cell (s.pos.1 + hi).toNat (s.pos.2 + wi).toNat = false := by
  intro hi wi hhi hwi hcell
  have hmem : (hi, wi) ∈ scanPairs s.shape := mem_scanPairs.2 ⟨hhi, hwi⟩
  have hread := collideScan_false_elim h (hi, wi) hmem hcell
  obtain ⟨e1, e2, _, _, hg⟩ := access_in_range hw hoob hhi hwi
  rw [hg] at hread
  rw [← e1, ← e2]
  exact Option.some_inj.1 hread

theorem checkCollision_all_false {level : Grid} {s : PlacedShape} (hw : level.wf)
    (hoob : checkShapeOutOfBound level s = false)
    (h : ∀ hi wi, hi < s.shape.rows → wi < s.shape.cols → s.shape.cell hi wi = true →
      level.cell (s.pos.1 + hi).toNat (s.pos.2 + wi).toNat = false) :
    checkCollision level s = some false := by
  apply collideScan_all_false
  intro p hp hcell
  rw [mem_scanPairs] at hp
  obtain ⟨e1, e2, _, _, hg⟩ := access_in_range hw hoob hp.1 hp.2
  rw [hg]
  rw [e1, e2]
  rw [h p.1 p.2 hp.1 hp.2 hcell]

theorem tryPlace_some_true_iff {level : Grid} {s : PlacedShape} :
    tryPlace level s = some true ↔
      checkShapeOutOfBound level s = false ∧ checkCollision level s = some false := by
  unfold tryPlace
  constructor
  · intro h
    by_cases hoob : checkShapeOutOfBound level s
    · rw [if_pos hoob] at h; simp at h
    · rw [if_neg hoob] at h
      refine ⟨by simpa using hoob, ?_⟩
      rcases hc : checkCollision level s with _ | b
      · rw [hc] at h; simp at h
      · rw [hc] at h
        cases b with
        | true => simp at h
        | false => rfl
  · intro ⟨hoob, hc⟩
    rw [if_neg (by simp [hoob]), hc]
    rfl

theorem tryPlace_isSome {level : Grid} {s : PlacedShape} (hw : level.wf) :
    ∃ b, tryPlace level s = some b := by
  unfold tryPlace
  by_cases hoob : checkShapeOutOfBound level s
  · rw [if_pos hoob]; exact ⟨false, rfl⟩
  · rw [if_neg hoob]
    obtain ⟨b, hb⟩ := checkCollision_isSome hw (by simpa using hoob)
    rw [hb]
    exact ⟨!b, rfl⟩

end CollisionLemmas

section LockLemmas

theorem lockFold_dims {s : PlacedShape} {l : List (Nat × Nat)} {d d' : Grid}
    (h : lockFold s l d = some d') :
    d'.rows = d.rows ∧ d'.cols = d.cols ∧ d'.data.length = d.data.length := by
  induction l generalizing d with
  | nil =>
    obtain rfl : d = d' := Option.some_inj.1 h
    exact ⟨rfl, rfl, rfl⟩
  | cons q rest ih =>
    rcases q with ⟨hi, wi⟩
    unfold lockFold at h
    by_cases hc : s.shape.cell hi wi
    · rw [if_pos hc] at h
      rcases hset : d.set? (usizeOf (s.pos.1 + hi)) (usizeOf (s.pos.2 + wi)) true with _ | d1
      · rw [hset] at h; exact Option.noConfusion h
      · rw [hset] at h
        obtain ⟨rfl, _⟩ := set?_some_elim hset
        obtain ⟨h1, h2, h3⟩ := ih h
        refine ⟨?_, ?_, ?_⟩ <;> simp_all
    · rw [if_neg hc] at h
      exact ih h

theorem lockFold_mono {s : PlacedShape} {l : List (Nat × Nat)} {d d' : Grid}
    (h : lockFold s l d = some d') {i j : Nat} (hcell : d.cell i j = true) :
    d'.cell i j = true := by
  induction l generalizing d with
  | nil =>
    obtain rfl : d = d' := Option.some_inj.1 h
    exact hcell
  | cons q rest ih =>
    rcases q with ⟨hi, wi⟩
    unfold lockFold at h
    by_cases hc : s.shape.cell hi wi
    · rw [if_pos hc] at h
      rcases hset : d.set? (usizeOf (s.pos.1 + hi)) (usizeOf (s.pos.2 + wi)) true with _ | d1
      · rw [hset] at h; exact Option.noConfusion h
      · rw [hset] at h
        obtain ⟨rfl, hlt⟩ := set?_some_elim hset
        apply ih h
        rw [cell_setCell]
        split
        · rfl
        · exact hcell
    · rw [if_neg hc] at h
      exact ih h hcell

theorem lockFold_writes {s : PlacedShape} {l : List (Nat × Nat)} {d d' : Grid}
    (h : lockFold s l d = some d') {hi wi : Nat} (hmem : (hi, wi) ∈ l)
    (hc : s.shape.cell hi wi = true) :
    d'.cell (usizeOf (s.pos.1 + hi)) (usizeOf (s.pos.2 + wi)) = true := by
  induction l generalizing d with
  | nil => exact absurd hmem (List.not_mem_nil _)
  | cons q rest ih =>
    rcases q with ⟨hi', wi'⟩
    unfold lockFold at h
    rcases List.mem_cons.1 hmem with hq | hq
    · obtain ⟨rfl, rfl⟩ : hi = hi' ∧ wi = wi' := Prod.ext_iff.1 hq
      rw [if_pos hc] at h
      rcases hset : d.set? (usizeOf (s.pos.1 + hi)) (usizeOf (s.pos.2 + wi)) true with _ | d1
      · rw [hset] at h; exact Option.noConfusion h
      · rw [hset] at h
        obtain ⟨rfl, hlt⟩ := set?_some_elim hset
        apply lockFold_mono h
        rw [cell_setCell, if_pos ⟨rfl, hlt⟩]
    · by_cases hc' : s.shape.cell hi' wi'
      · rw [if_pos hc'] at h
        rcases hset : d.set? (usizeOf (s.pos.1 + hi')) (usizeOf (s.pos.2 + wi')) true with _ | d1
        · rw [hset] at h; exact Option.noConfusion h
        · rw [hset] at h
          exact ih h hq
      · rw [if_neg hc'] at h
        exact ih h hq

end LockLemmas

section ElimLemmas

theorem copyRowGo_dims {src : Grid} {row rowSrc : Nat} {l : List Nat} {d d' : Grid}
    (h : copyRowGo src row rowSrc l d = some d') :
    d'.rows = d.rows ∧ d'.cols = d.cols ∧ d'.data.length = d.data.length := by
  induction l generalizing d with
  | nil =>
    obtain rfl : d = d' := Option.some_inj.1 h
    exact ⟨rfl, rfl, rfl⟩
  | cons c rest ih =>
    unfold copyRowGo at h
    split at h
    · exact Option.noConfusion h
    · split at h
      · exact Option.noConfusion h
      · rename_i hset
        obtain ⟨rfl, _⟩ := set?_some_elim hset
        obtain ⟨h1, h2, h3⟩ := ih h
        refine ⟨?_, ?_, ?_⟩ <;> simp_all

theorem copyRow_dims {src : Grid} {row rowSrc : Nat} {d d' : Grid}
    (h : copyRow src row rowSrc d = some d') :
    d'.rows = d.rows ∧ d'.cols = d.cols ∧ d'.data.length = d.data.length :=
  copyRowGo_dims h

theorem elimLoop_dims {src : Grid} {rl : List Nat} {toElim : List Nat} {rowSrc : Nat}
    {acc acc' : Grid} (h : elimLoop src rl toElim rowSrc acc = some acc') :
    acc'.rows = acc.rows ∧ acc'.cols = acc.cols ∧ acc'.data.length = acc.data.length := by
  induction rl generalizing toElim rowSrc acc with
  | nil =>
    obtain rfl : acc = acc' := Option.some_inj.1 h
    exact ⟨rfl, rfl, rfl⟩
  | cons row rest ih =>
    simp only [elimLoop] at h
    split at h
    · exact Option.noConfusion h
    · rename_i acc1 hcopy
      obtain ⟨h1, h2, h3⟩ := copyRow_dims hcopy
      split at h
      · obtain rfl : acc1 = acc' := Option.some_inj.1 h
        exact ⟨h1, h2, h3⟩
      · obtain ⟨h1', h2', h3'⟩ := ih h
        exact ⟨h1'.trans h1, h2'.trans h2, h3'.trans h3⟩

theorem eliminateRows_dims {g g' : Grid} (hw : g.wf) (h : eliminateRows g = some g') :
    g'.rows = g.rows ∧ g'.cols = g.cols ∧ g'.wf := by
  unfold eliminateRows at h
  split at h
  · obtain rfl : g = g' := Option.some_inj.1 h
    exact ⟨rfl, rfl, hw⟩
  · obtain ⟨h1, h2, h3⟩ := elimLoop_dims h
    refine ⟨by simpa using h1, by simpa using h2, ?_⟩
    unfold Grid.wf
    rw [h1, h2, h3]
    simpa using (new_wf g.rows g.cols)

theorem eliminateRows_no_full {g : Grid}
    (h : ∀ r, r < g.rows → ¬ (∀ c, c < g.cols → g.cell r c = true)) :
    eliminateRows g = some g := by
  have hempty : fullRows g = [] := by
    rw [fullRows, List.filter_eq_nil_iff]
    intro r hr
    rw [List.mem_range] at hr
    intro hfull
    rw [rowFull, List.all_eq_true] at hfull
    exact h r hr (fun c hc => hfull c (List.mem_range.2 hc))
  unfold eliminateRows
  rw [if_pos hempty]

end ElimLemmas

section CatalogLemmas

theorem shapesList_facts :
    ∀ s ∈ shapesList, s.wf ∧ 1 ≤ s.rows ∧ s.rows ≤ 4 ∧ 1 ≤ s.cols ∧ s.cols ≤ 3 := by
  decide

theorem catalogShape_mem (pick : Nat) :
    ((shapesList[pick % shapesList.length]?).getD (Grid.new 0 0)) ∈ shapesList := by
  have h7 : pick % shapesList.length < shapesList.length :=
    Nat.mod_lt _ (by decide)
  rw [List.getElem?_eq_getElem h7]
  simp only [Option.getD_some]
  exact List.getElem_mem h7

theorem catalogShape_facts (pick : Nat) :
    ((shapesList[pick % shapesList.length]?).getD (Grid.new 0 0)).wf ∧
    1 ≤ ((shapesList[pick % shapesList.length]?).getD (Grid.new 0 0)).rows ∧
    ((shapesList[pick % shapesList.length]?).getD (Grid.new 0 0)).rows ≤ 4 ∧
    1 ≤ ((shapesList[pick % shapesList.length]?).getD (Grid.new 0 0)).cols ∧
    ((shapesList[pick % shapesList.length]?).getD (Grid.new 0 0)).cols ≤ 3 :=
  shapesList_facts _ (catalogShape_mem pick)

end CatalogLemmas

section SpawnLemmas

theorem spawnLoop_no_collision {level : Grid} {s0 : PlacedShape} {fuel : Nat}
    (h : checkCollision level s0 = some false) :
    spawnLoop level (fuel + 1) s0 = some s0 := by
  unfold spawnLoop
  rw [h]

theorem spawnFuel_succ (level : Grid) :
    spawnFuel level = (level.data.length + level.rows + 1) + 1 := by
  unfold spawnFuel
  omega

theorem spawnStart_shape_le {level : Grid} (hr : 4 ≤ level.rows) (pick : Nat) :
    (spawnStart pick level).shape.rows ≤ level.rows := by
  obtain ⟨_, _, hr4, _, _⟩ := catalogShape_facts pick
  have h4 : (spawnStart pick level).shape.rows ≤ 4 := hr4
  omega

theorem spawnStart_oob_false {level : Grid} (hr : 4 ≤ level.rows) (hc : 6 ≤ level.cols)
    (pick : Nat) : checkShapeOutOfBound level (spawnStart pick level) = false := by
  obtain ⟨_, hr1, hr4, hc1, hc3⟩ := catalogShape_facts pick
  have h4 : (spawnStart pick level).shape.rows ≤ 4 := hr4
  have h3 : (spawnStart pick level).shape.cols ≤ 3 := hc3
  have e1 : (spawnStart pick level).pos.1 =
      ((level.rows - (spawnStart pick level).shape.rows : Nat) : Int) := rfl
  have e2 : (spawnStart pick level).pos.2 = ((level.cols / 2 : Nat) : Int) := rfl
  rw [oob_false_iff, e1, e2]
  refine ⟨by positivity, by omega, by positivity, by omega⟩

theorem createNewShape_no_collision {level : Grid} {pick : Nat}
    (hrows : (spawnStart pick level).shape.rows ≤ level.rows)
    (hcol : checkCollision level (spawnStart pick level) = some false) :
    createNewShapeWith shapesList pick level = some (spawnStart pick level) := by
  show (if (spawnStart pick level).shape.rows ≤ level.rows then
      spawnLoop level (spawnFuel level) (spawnStart pick level) else none) = _
  rw [if_pos hrows, spawnFuel_succ]
  exact spawnLoop_no_collision hcol

theorem spawnAccesses_no_collision {level : Grid} {pick : Nat}
    (hrows : (spawnStart pick level).shape.rows ≤ level.rows)
    (hcol : checkCollision level (spawnStart pick level) = some false) :
    spawnAccesses pick level =
      collideTrace level (spawnStart pick level) (scanPairs (spawnStart pick level).shape) := by
  show (if (spawnStart pick level).shape.rows ≤ level.rows then
      spawnLoopTrace level (spawnFuel level) (spawnStart pick level) else []) = _
  rw [if_pos hrows, spawnFuel_succ]
  show collideTrace level (spawnStart pick level) (scanPairs (spawnStart pick level).shape) ++
      (match checkCollision level (spawnStart pick level) with
       | some true => spawnLoopTrace level (level.data.length + level.rows + 1)
           { spawnStart pick level with
             pos := ((spawnStart pick level).pos.1 + 1, (spawnStart pick level).pos.2) }
       | _ => []) = _
  rw [hcol]
  simp

theorem collideTrace_subset {level : Grid} {s : PlacedShape} :
    ∀ l, ∀ q ∈ collideTrace level s l, ∃ p ∈ l, q = (s.pos.1 + p.1, s.pos.2 + p.2) := by
  intro l
  induction l with
  | nil =>
    intro q hq
    exact absurd hq (List.not_mem_nil _)
  | cons p rest ih =>
    rcases p with ⟨hi, wi⟩
    intro q hq
    unfold collideTrace at hq
    by_cases hc : s.shape.cell hi wi
    · rw [if_pos hc] at hq
      split at hq
      · exact ⟨(hi, wi), List.mem_cons_self _ _, by simpa using hq⟩
      · exact ⟨(hi, wi), List.mem_cons_self _ _, by simpa using hq⟩
      · rcases List.mem_cons.1 hq with h | h
        · exact ⟨(hi, wi), List.mem_cons_self _ _, h⟩
        · obtain ⟨p, hp, hqe⟩ := ih q h
          exact ⟨p, List.mem_cons_of_mem _ hp, hqe⟩
    · rw [if_neg hc] at hq
      obtain ⟨p, hp, hqe⟩ := ih q hq
      exact ⟨p, List.mem_cons_of_mem _ hp, hqe⟩

/-- A spawn on a level whose cells are all false (after `reset` clears the
level) succeeds at the initial centered position, which is in bounds and
collision-free, provided the level is at least 4 rows by 6 columns. -/
theorem spawn_on_blank {level : Grid} (hw : level.wf)
    (hblank : ∀ i j, i < level.rows → j < level.cols → level.cell i j = false)
    (hr : 4 ≤ level.rows) (hc : 6 ≤ level.cols) (pick : Nat) :
    ∃ s, createNewShapeWith shapesList pick level = some s ∧
      checkShapeOutOfBound level s = false ∧ checkCollision level s = some false := by
  have hoob := spawnStart_oob_false hr hc pick
  have hcol : checkCollision level (spawnStart pick level) = some false := by
    apply checkCollision_all_false hw hoob
    intro hi wi hhi hwi _
    apply hblank
    · obtain ⟨h1, h2, _, _⟩ := oob_false_iff.1 hoob
      omega
    · obtain ⟨_, _, h3, h4⟩ := oob_false_iff.1 hoob
      omega
  exact ⟨spawnStart pick level,
    createNewShape_no_collision (spawnStart_shape_le hr pick) hcol, hoob, hcol⟩

end SpawnLemmas

section StepLemmas

/-- The candidate produced by `move_shape(dir)`. -/
def moveCandidate (s : PlacedShape) (dir : Int × Int) : PlacedShape :=
  { s with pos := (s.pos.1 + dir.1, s.pos.2 + dir.2) }

theorem moveShape_playing {dir : Int × Int} {g : Game} {s : PlacedShape}
    (hP : g.state = State.Playing) (hs : g.shape = some s) :
    moveShape dir g =
      match tryPlace g.level (moveCandidate s dir) with
      | none => none
      | some true => some ({ g with shape := some (moveCandidate s dir) }, true)
      | some false => some ({ g with shape := some s }, false) := by
  unfold moveShape
  rw [if_pos hP, hs]
  rfl

theorem shape_eta {g : Game} {s : PlacedShape} (hs : g.shape = some s) :
    { g with shape := some s } = g := by
  cases g
  simp_all

theorem moveShape_cases {dir : Int × Int} {g g' : Game} {ok : Bool} {s : PlacedShape}
    (hP : g.state = State.Playing) (hs : g.shape = some s)
    (h : moveShape dir g = some (g', ok)) :
    (ok = true ∧ g' = { g with shape := some (moveCandidate s dir) } ∧
      checkShapeOutOfBound g.level (moveCandidate s dir) = false ∧
      checkCollision g.level (moveCandidate s dir) = some false) ∨
    (ok = false ∧ g' = g) := by
  rw [moveShape_playing hP hs] at h
  rcases htp : tryPlace g.level (moveCandidate s dir) with _ | b
  · rw [htp] at h; exact Option.noConfusion h
  · rw [htp] at h
    cases b with
    | true =>
      obtain ⟨h1, h2⟩ := Prod.mk.injEq .. ▸ Option.some_inj.1 h
      obtain ⟨hoob, hcol⟩ := tryPlace_some_true_iff.1 htp
      exact Or.inl ⟨h2.symm, h1.symm, hoob, hcol⟩
    | false =>
      obtain ⟨h1, h2⟩ := Prod.mk.injEq .. ▸ Option.some_inj.1 h
      exact Or.inr ⟨h2.symm, h1.symm.trans (shape_eta hs)⟩

theorem moveShape_isSome (dir : Int × Int) {g : Game} {s : PlacedShape}
    (hw : g.level.wf) (hP : g.state = State.Playing) (hs : g.shape = some s) :
    ∃ r, moveShape dir g = some r := by
  rw [moveShape_playing hP hs]
  obtain ⟨b, hb⟩ := tryPlace_isSome (s := moveCandidate s dir) hw
  rw [hb]
  cases b
  · exact ⟨_, rfl⟩
  · exact ⟨_, rfl⟩

/-- The rotated candidate tried on a `Rotate` event. -/
def rotateCandidate (s : PlacedShape) : PlacedShape :=
  { s with shape := Shape.rotate s.shape }

theorem handleEvent_rotate_playing {g : Game} {s : PlacedShape} {pick : Nat}
    (hP : g.state = State.Playing) (hs : g.shape = some s) :
    handleEvent Event.Rotate pick g =
      match tryPlace g.level (rotateCandidate s) with
      | none => none
      | some true => some ({ g with shape := some (rotateCandidate s) }, true)
      | some false => some (g, true) := by
  unfold handleEvent
  simp only [handleEventWith]
  rw [if_neg (by simp [hP]), hs]
  rfl

theorem tick_playing {g : Game} {pick : Nat} (hP : g.state = State.Playing) :
    tick pick g =
      match moveShape (-1, 0) g with
      | none => none
      | some (g', true) => some g'
      | some (g', false) =>
        match g'.shape with
        | none => none
        | some s => tickLocked shapesList pick g'.level s := by
  unfold tick tickWith
  rw [if_neg (by simp [hP])]

theorem tick_not_playing {g : Game} {pick : Nat} (hP : g.state ≠ State.Playing) :
    tick pick g = some g := by
  unfold tick tickWith
  rw [if_pos hP]

theorem tickLocked_cases {cat : List Grid} {pick : Nat} {lvl0 : Grid} {s : PlacedShape}
    {g2 : Game} (h : tickLocked cat pick lvl0 s = some g2) :
    ∃ lvl lvl2 ns, lockShape lvl0 s = some lvl ∧ eliminateRows lvl = some lvl2 ∧
      createNewShapeWith cat pick lvl2 = some ns ∧ g2.level = lvl2 ∧ g2.shape = some ns ∧
      ((g2.state = State.End ∧
         (checkShapeOutOfBound lvl2 ns = true ∨ checkCollision lvl2 ns = some true)) ∨
       (g2.state = State.Playing ∧ checkShapeOutOfBound lvl2 ns = false ∧
         checkCollision lvl2 ns = some false)) := by
  unfold tickLocked at h
  split at h
  · exact Option.noConfusion h
  · rename_i lvl hlock
    split at h
    · exact Option.noConfusion h
    · rename_i lvl2 helim
      split at h
      · exact Option.noConfusion h
      · rename_i ns hnew
        refine ⟨lvl, lvl2, ns, hlock, helim, hnew, ?_⟩
        split at h
        · rename_i hoob
          obtain rfl : _ = g2 := Option.some_inj.1 h
          exact ⟨rfl, rfl, Or.inl ⟨rfl, Or.inl hoob⟩⟩
        · rename_i hoob
          split at h
          · exact Option.noConfusion h
          · rename_i hcol
            obtain rfl : _ = g2 := Option.some_inj.1 h
            exact ⟨rfl, rfl, Or.inl ⟨rfl, Or.inr hcol⟩⟩
          · rename_i hcol
            obtain rfl : _ = g2 := Option.some_inj.1 h
            exact ⟨rfl, rfl, Or.inr ⟨rfl, by simpa using hoob, hcol⟩⟩

end StepLemmas

section Invariant

theorem pair_some_eq {α β : Type _} {x x' : α} {y y' : β}
    (h : some (x, y) = some (x', y')) : x = x' ∧ y = y' := by
  injection h with h'
  exact Prod.ext_iff.1 h'

/-- The engine invariant maintained by every event and tick: the level is
well-formed with fixed dimensions, and while `Playing` or `Paused` a
current piece exists that passed both the bounds check and the collision
check. -/
def Inv (R C : Nat) (g : Game) : Prop :=
  g.level.wf ∧ g.level.rows = R ∧ g.level.cols = C ∧
  ((g.state = State.Playing ∨ g.state = State.Paused) →
    ∃ s, g.shape = some s ∧ checkShapeOutOfBound g.level s = false ∧
      checkCollision g.level s = some false)

theorem inv_new (R C : Nat) : Inv R C (Game.new R C) := by
  refine ⟨new_wf R C, rfl, rfl, ?_⟩
  rintro (h | h) <;> exact State.noConfusion h

theorem inv_reset {R C : Nat} (hR : 4 ≤ R) (hC : 6 ≤ C) {g g' : Game} {pick : Nat}
    (hw : g.level.wf) (hr : g.level.rows = R) (hc : g.level.cols = C)
    (h : resetWith shapesList pick g = some g') : Inv R C g' := by
  obtain ⟨s0, hcreate, hoob, hcol⟩ :=
    spawn_on_blank (clearAll_wf hw) (fun i j _ _ => clearAll_cell g.level i j)
      (by simpa [hr] using hR) (by simpa [hc] using hC) pick
  simp only [resetWith] at h
  split at h
  · exact Option.noConfusion h
  · rename_i s1 hcreate'
    obtain rfl : s0 = s1 := Option.some_inj.1 (hcreate.symm.trans hcreate')
    obtain rfl : _ = g' := Option.some_inj.1 h
    exact ⟨clearAll_wf hw, by simpa using hr, by simpa using hc,
      fun _ => ⟨s0, rfl, hoob, hcol⟩⟩

theorem inv_handleEvent {R C : Nat} (hR : 4 ≤ R) (hC : 6 ≤ C) {g g' : Game} {e : Event}
    {pick : Nat} {b : Bool} (hinv : Inv R C g) (h : handleEvent e pick g = some (g', b)) :
    Inv R C g' := by
  obtain ⟨hw, hr, hc, hpiece⟩ := hinv
  cases e with
  | Start =>
    unfold handleEvent at h
    simp only [handleEventWith] at h
    cases hst : g.state with
    | Init =>
      simp only [hst] at h
      rcases hres : resetWith shapesList pick g with _ | g1
      · rw [hres] at h; simp at h
      · rw [hres] at h
        simp only [Option.map_some'] at h
        have h1 : g1 = g' := (pair_some_eq h).1
        exact h1 ▸ inv_reset hR hC hw hr hc hres
    | End =>
      simp only [hst] at h
      rcases hres : resetWith shapesList pick g with _ | g1
      · rw [hres] at h; simp at h
      · rw [hres] at h
        simp only [Option.map_some'] at h
        have h1 : g1 = g' := (pair_some_eq h).1
        exact h1 ▸ inv_reset hR hC hw hr hc hres
    | Paused =>
      simp only [hst] at h
      have h1 : { g with state := State.Playing } = g' := (pair_some_eq h).1
      refine h1 ▸ ⟨hw, hr, hc, fun _ => ?_⟩
      obtain ⟨s, hs, hoob, hcol⟩ := hpiece (Or.inr hst)
      exact ⟨s, hs, hoob, hcol⟩
    | Playing =>
      simp only [hst] at h
      have h1 : g = g' := (pair_some_eq h).1
      exact h1 ▸ ⟨hw, hr, hc, hpiece⟩
  | Left =>
    unfold handleEvent at h
    simp only [handleEventWith] at h
    by_cases hst : g.state = State.Playing
    · rw [if_neg (by simp [hst])] at h
      obtain ⟨s, hs, _, _⟩ := hpiece (Or.inl hst)
      obtain ⟨⟨g1, ok⟩, hmv⟩ := moveShape_isSome (0, -1) hw hst hs
      rw [hmv] at h
      simp only [Option.map_some'] at h
      have h1 : g1 = g' := (pair_some_eq h).1
      rcases moveShape_cases hst hs hmv with ⟨_, rfl, hoob, hcol⟩ | ⟨_, rfl⟩
      · exact h1 ▸ ⟨hw, hr, hc, fun _ => ⟨_, rfl, hoob, hcol⟩⟩
      · exact h1 ▸ ⟨hw, hr, hc, hpiece⟩
    · rw [if_pos (by simp [hst])] at h
      have h1 : g = g' := (pair_some_eq h).1
      exact h1 ▸ ⟨hw, hr, hc, hpiece⟩
  | Right =>
    unfold handleEvent at h
    simp only [handleEventWith] at h
    by_cases hst : g.state = State.Playing
    · rw [if_neg (by simp [hst])] at h
      obtain ⟨s, hs, _, _⟩ := hpiece (Or.inl hst)
      obtain ⟨⟨g1, ok⟩, hmv⟩ := moveShape_isSome (0, 1) hw hst hs
      rw [hmv] at h
      simp only [Option.map_some'] at h
      have h1 : g1 = g' := (pair_some_eq h).1
      rcases moveShape_cases hst hs hmv with ⟨_, rfl, hoob, hcol⟩ | ⟨_, rfl⟩
      · exact h1 ▸ ⟨hw, hr, hc, fun _ => ⟨_, rfl, hoob, hcol⟩⟩
      · exact h1 ▸ ⟨hw, hr, hc, hpiece⟩
    · rw [if_pos (by simp [hst])] at h
      have h1 : g = g' := (pair_some_eq h).1
      exact h1 ▸ ⟨hw, hr, hc, hpiece⟩
  | Pause =>
    unfold handleEvent at h
    simp only [handleEventWith] at h
    have h1 : (if g.state = State.Playing then { g with state := State.Paused } else g) = g' :=
      (pair_some_eq h).1
    by_cases hst : g.state = State.Playing
    · rw [if_pos hst] at h1
      refine h1 ▸ ⟨hw, hr, hc, fun _ => ?_⟩
      obtain ⟨s, hs, hoob, hcol⟩ := hpiece (Or.inl hst)
      exact ⟨s, hs, hoob, hcol⟩
    · rw [if_neg hst] at h1
      exact h1 ▸ ⟨hw, hr, hc, hpiece⟩
  | Rotate =>
    by_cases hst : g.state = State.Playing
    · obtain ⟨s, hs, _, _⟩ := hpiece (Or.inl hst)
      rw [handleEvent_rotate_playing hst hs] at h
      split at h
      · exact Option.noConfusion h
      · rename_i htp
        obtain ⟨hoob, hcol⟩ := tryPlace_some_true_iff.1 htp
        have h1 : { g with shape := some (rotateCandidate s) } = g' := (pair_some_eq h).1
        exact h1 ▸ ⟨hw, hr, hc, fun _ => ⟨_, rfl, hoob, hcol⟩⟩
      · have h1 : g = g' := (pair_some_eq h).1
        exact h1 ▸ ⟨hw, hr, hc, hpiece⟩
    · unfold handleEvent at h
      simp only [handleEventWith] at h
      rw [if_pos (by simp [hst])] at h
      have h1 : g = g' := (pair_some_eq h).1
      exact h1 ▸ ⟨hw, hr, hc, hpiece⟩

theorem inv_tick {R C : Nat} {g g' : Game} {pick : Nat}
    (hinv : Inv R C g) (h : tick pick g = some g') : Inv R C g' := by
  obtain ⟨hw, hr, hc, hpiece⟩ := hinv
  by_cases hst : g.state = State.Playing
  · rw [tick_playing hst] at h
    obtain ⟨s, hs, hoob, hcol⟩ := hpiece (Or.inl hst)
    split at h
    · exact Option.noConfusion h
    · rename_i g1 hmv
      obtain rfl : g1 = g' := Option.some_inj.1 h
      rcases moveShape_cases hst hs hmv with ⟨_, rfl, hoob', hcol'⟩ | ⟨hfalse, _⟩
      · exact ⟨hw, hr, hc, fun _ => ⟨_, rfl, hoob', hcol'⟩⟩
      · exact absurd hfalse (by simp)
    · rename_i g1 hmv
      rcases moveShape_cases hst hs hmv with ⟨htrue, _⟩ | ⟨_, rfl⟩
      · exact absurd htrue (by simp)
      · split at h
        · exact Option.noConfusion h
        · rename_i s2 hs2
          obtain rfl : s2 = s := by
            rw [hs] at hs2
            exact (Option.some_inj.1 hs2).symm
          obtain ⟨lvl, lvl2, ns, hlock, helim, hnew, hlevel, hshape, hstate⟩ :=
            tickLocked_cases h
          obtain ⟨hl1, hl2, hl3⟩ := lockFold_dims hlock
          have hlwf : lvl.wf := by
            unfold Grid.wf
            rw [hl1, hl2, hl3]
            exact hw
          obtain ⟨he1, he2, hewf⟩ := eliminateRows_dims hlwf helim
          refine ⟨?_, ?_, ?_, ?_⟩
          · rw [hlevel]; exact hewf
          · rw [hlevel, he1, hl1]; exact hr
          · rw [hlevel, he2, hl2]; exact hc
          · rintro (hps | hps)
            · rcases hstate with ⟨hend, _⟩ | ⟨hplay, hoob2, hcol2⟩
              · rw [hend] at hps; exact State.noConfusion hps
              · exact ⟨ns, hshape, by rw [hlevel]; exact hoob2, by rw [hlevel]; exact hcol2⟩
            · rcases hstate with ⟨hend, _⟩ | ⟨hplay, _, _⟩
              · rw [hend] at hps; exact State.noConfusion hps
              · rw [hplay] at hps; exact State.noConfusion hps
  · rw [tick_not_playing hst] at h
    obtain rfl : g = g' := Option.some_inj.1 h
    exact ⟨hw, hr, hc, hpiece⟩

theorem inv_reach {R C : Nat} (hR : 4 ≤ R) (hC : 6 ≤ C) {g : Game}
    (h : Reach (Game.new R C) g) : Inv R C g := by
  induction h with
  | refl => exact inv_new R C
  | stepEvent _ hstep ih => exact inv_handleEvent hR hC ih hstep
  | stepTick _ hstep ih => exact inv_tick ih hstep

end Invariant

section RenderLemmas

/-- One of the piece's occupied cells lands exactly on level cell
`(i, j)`. -/
def coversB (s : PlacedShape) (i j : Nat) : Bool :=
  (scanPairs s.shape).any (fun p =>
    s.shape.cell p.1 p.2 && decide ((i : Int) = s.pos.1 + p.1) &&
      decide ((j : Int) = s.pos.2 + p.2))

theorem coversB_iff {s : PlacedShape} {i j : Nat} :
    coversB s i j = true ↔
      ∃ hi wi, hi < s.shape.rows ∧ wi < s.shape.cols ∧ s.shape.cell hi wi = true ∧
        (i : Int) = s.pos.1 + hi ∧ (j : Int) = s.pos.2 + wi := by
  unfold coversB
  rw [List.any_eq_true]
  constructor
  · rintro ⟨p, hp, hcond⟩
    rw [mem_scanPairs] at hp
    simp only [Bool.and_eq_true, decide_eq_true_eq] at hcond
    exact ⟨p.1, p.2, hp.1, hp.2, hcond.1.1, hcond.1.2, hcond.2⟩
  · rintro ⟨hi, wi, h1, h2, h3, h4, h5⟩
    refine ⟨(hi, wi), mem_scanPairs.2 ⟨h1, h2⟩, ?_⟩
    simp only [Bool.and_eq_true, decide_eq_true_eq]
    exact ⟨⟨h3, h4⟩, h5⟩

theorem renderCols_dims (level : Grid) (s : PlacedShape) (hi lrow : Nat) :
    ∀ fuel wi acc,
      (renderCols level s hi lrow wi fuel acc).rows = acc.rows ∧
      (renderCols level s hi lrow wi fuel acc).cols = acc.cols ∧
      (renderCols level s hi lrow wi fuel acc).data.length = acc.data.length := by
  intro fuel
  induction fuel with
  | zero => intro wi acc; exact ⟨rfl, rfl, rfl⟩
  | succ n ih =>
    intro wi acc
    simp only [renderCols]
    split
    · exact ⟨rfl, rfl, rfl⟩
    · obtain ⟨h1, h2, h3⟩ := ih (wi + 1) (if s.shape.cell hi wi then
        acc.setCell lrow (s.pos.2 + (wi : Int)).toNat true else acc)
      by_cases hc : s.shape.cell hi wi
      · rw [if_pos hc] at h1 h2 h3
        simp only [if_pos hc]
        exact ⟨h1.trans (by simp), h2.trans (by simp), h3.trans (by simp)⟩
      · rw [if_neg hc] at h1 h2 h3
        simp only [if_neg hc]
        exact ⟨h1, h2, h3⟩

theorem renderRows_dims {level : Grid} {s : PlacedShape} :
    ∀ fuel hi acc,
      (renderRows level s hi fuel acc).rows = acc.rows ∧
      (renderRows level s hi fuel acc).cols = acc.cols ∧
      (renderRows level s hi fuel acc).data.length = acc.data.length := by
  intro fuel
  induction fuel with
  | zero => intro hi acc; exact ⟨rfl, rfl, rfl⟩
  | succ n ih =>
    intro hi acc
    simp only [renderRows]
    split
    · exact ⟨rfl, rfl, rfl⟩
    · obtain ⟨h1, h2, h3⟩ := ih (hi + 1)
        (renderCols level s hi (s.pos.1 + (hi : Int)).toNat 0 s.shape.cols acc)
      obtain ⟨c1, c2, c3⟩ :=
        renderCols_dims level s hi (s.pos.1 + (hi : Int)).toNat s.shape.cols 0 acc
      exact ⟨h1.trans c1, h2.trans c2, h3.trans c3⟩

theorem decide_or_eq {p q r : Prop} [Decidable p] [Decidable q] [Decidable r]
    (h : p ∨ q ↔ r) : (decide p || decide q) = decide r := by
  by_cases hr : r
  · rw [decide_eq_true hr]
    rcases h.2 hr with hp | hq
    · rw [decide_eq_true hp]
      simp
    · rw [decide_eq_true hq]
      simp
  · rw [decide_eq_false hr, decide_eq_false (fun hp => hr (h.1 (Or.inl hp))),
      decide_eq_false (fun hq => hr (h.1 (Or.inr hq)))]
    rfl

theorem cell_setCell_coords {g : Grid} {v : Bool} (hww : g.wf)
    {i j i' j' : Nat} (hi : i < g.rows) (hj : j < g.cols) (hi' : i' < g.rows) :
    (g.setCell i j v).cell i' j' = if i = i' ∧ j = j' then v else g.cell i' j' := by
  rw [cell_setCell]
  by_cases heq : i = i' ∧ j = j'
  · rw [if_pos heq, if_pos ⟨by rw [heq.1, heq.2], flat_lt' hww hi hj⟩]
  · rw [if_neg heq, if_neg ?_]
    rintro ⟨hfe, _⟩
    exact heq (flat_inj hi hi' hfe)

theorem renderCols_cell {level : Grid} {s : PlacedShape} {hi lrow : Nat}
    (hw : level.wf) (hpc : 0 ≤ s.pos.2) {i j : Nat}
    (hii : i < level.rows) (hjj : j < level.cols) (hlr : lrow < level.rows) :
    ∀ fuel wi acc, acc.rows = level.rows → acc.cols = level.cols →
      acc.data.length = level.data.length →
      (renderCols level s hi lrow wi fuel acc).cell i j =
        (acc.cell i j ||
          decide (∃ k, k < fuel ∧ s.shape.cell hi (wi + k) = true ∧
            i = lrow ∧ (j : Int) = s.pos.2 + (wi + k))) := by
  intro fuel
  induction fuel with
  | zero =>
    intro wi acc _ _ _
    simp [renderCols]
  | succ n ih =>
    intro wi acc har hac hal
    simp only [renderCols]
    by_cases hguard : (s.pos.2 + (wi : Int) < 0 ∨ (level.cols : Int) ≤ s.pos.2 + wi)
    · rw [if_pos hguard]
      have hnone : ¬ ∃ k, k < n + 1 ∧ s.shape.cell hi (wi + k) = true ∧
          i = lrow ∧ (j : Int) = s.pos.2 + (wi + k) := by
        rintro ⟨k, _, _, _, hj⟩
        rcases hguard with hg | hg
        · omega
        · omega
      simp [hnone]
    · rw [if_neg hguard]
      push_neg at hguard
      obtain ⟨hg0, hgc⟩ := hguard
      have hacwf : acc.wf := by
        unfold Grid.wf
        rw [har, hac, hal]
        exact hw
      set acc' := (if s.shape.cell hi wi then
          acc.setCell lrow (s.pos.2 + (wi : Int)).toNat true else acc) with hacc'
      have har' : acc'.rows = level.rows := by
        rw [hacc']; split <;> simpa using har
      have hac' : acc'.cols = level.cols := by
        rw [hacc']; split <;> simpa using hac
      have hal' : acc'.data.length = level.data.length := by
        rw [hacc']; split <;> simpa using hal
      rw [ih (wi + 1) acc' har' hac' hal']
      have hstep : acc'.cell i j =
          (acc.cell i j || decide (s.shape.cell hi wi = true ∧ i = lrow ∧
            (j : Int) = s.pos.2 + wi)) := by
        rw [hacc']
        by_cases hc : s.shape.cell hi wi
        · rw [if_pos hc]
          rw [cell_setCell_coords hacwf (by omega) (by rw [hac]; omega) (by omega)]
          by_cases heq : i = lrow ∧ (j : Int) = s.pos.2 + wi
          · rw [if_pos ⟨heq.1.symm, by omega⟩]
            simp [hc, heq]
          · rw [if_neg ?_]
            · simp only [hc, true_and]
              rw [decide_eq_false heq]
              simp
            · rintro ⟨h1, h2⟩
              exact heq ⟨h1.symm, by omega⟩
        · rw [if_neg hc]
          rw [decide_eq_false (by simp [hc])]
          simp
      rw [hstep]
      cases hcc : acc.cell i j
      · simp only [Bool.false_or]
        apply decide_or_eq
        constructor
        · rintro (⟨hc, h1, h2⟩ | ⟨k, hk, hcell, h1, h2⟩)
          · refine ⟨0, by omega, ?_, h1, ?_⟩
            · simpa using hc
            · push_cast at h2 ⊢
              omega
          · refine ⟨k + 1, by omega, ?_, h1, ?_⟩
            · have he : wi + (k + 1) = wi + 1 + k := by omega
              rw [he]
              exact hcell
            · push_cast at h2 ⊢
              omega
        · rintro ⟨k, hk, hcell, h1, h2⟩
          cases k with
          | zero =>
            refine Or.inl ⟨by simpa using hcell, h1, ?_⟩
            push_cast at h2 ⊢
            omega
          | succ m =>
            refine Or.inr ⟨m, by omega, ?_, h1, ?_⟩
            · have he : wi + 1 + m = wi + (m + 1) := by omega
              rw [he]
              exact hcell
            · push_cast at h2 ⊢
              omega
      · simp

theorem renderRows_cell {level : Grid} {s : PlacedShape}
    (hw : level.wf) (hpr : 0 ≤ s.pos.1) (hpc : 0 ≤ s.pos.2) {i j : Nat}
    (hii : i < level.rows) (hjj : j < level.cols) :
    ∀ fuel hi acc, acc.rows = level.rows → acc.cols = level.cols →
      acc.data.length = level.data.length →
      (renderRows level s hi fuel acc).cell i j =
        (acc.cell i j ||
          decide (∃ kh, kh < fuel ∧ ∃ kw, kw < s.shape.cols ∧
            s.shape.cell (hi + kh) kw = true ∧
            (i : Int) = s.pos.1 + (hi + kh) ∧ (j : Int) = s.pos.2 + kw)) := by
  intro fuel
  induction fuel with
  | zero =>
    intro hi acc _ _ _
    simp [renderRows]
  | succ n ih =>
    intro hi acc har hac hal
    simp only [renderRows]
    by_cases hguard : (s.pos.1 + (hi : Int) < 0 ∨ (level.rows : Int) ≤ s.pos.1 + hi)
    · rw [if_pos hguard]
      have hnone : ¬ ∃ kh, kh < n + 1 ∧ ∃ kw, kw < s.shape.cols ∧
          s.shape.cell (hi + kh) kw = true ∧
          (i : Int) = s.pos.1 + (hi + kh) ∧ (j : Int) = s.pos.2 + kw := by
        rintro ⟨kh, _, kw, _, _, hieq, _⟩
        rcases hguard with hg | hg
        · omega
        · omega
      simp [hnone]
    · rw [if_neg hguard]
      push_neg at hguard
      obtain ⟨hg0, hgr⟩ := hguard
      have hlr : (s.pos.1 + (hi : Int)).toNat < level.rows := by omega
      set acc1 := renderCols level s hi (s.pos.1 + (hi : Int)).toNat 0 s.shape.cols acc
        with hacc1
      obtain ⟨hd1, hd2, hd3⟩ :=
        renderCols_dims level s hi (s.pos.1 + (hi : Int)).toNat s.shape.cols 0 acc
      rw [ih (hi + 1) acc1 (hd1.trans har) (hd2.trans hac) (hd3.trans hal)]
      rw [hacc1, renderCols_cell hw hpc hii hjj hlr s.shape.cols 0 acc har hac hal]
      cases hcc : acc.cell i j
      · simp only [Bool.false_or]
        apply decide_or_eq
        constructor
        · rintro (⟨kw, hkw, hcell, h1, h2⟩ | ⟨kh, hkh, kw, hkw, hcell, h1, h2⟩)
          · refine ⟨0, by omega, kw, ?_, ?_, ?_, ?_⟩
            · simpa using hkw
            · simpa using hcell
            · push_cast at h1 ⊢
              omega
            · push_cast at h2 ⊢
              omega
          · refine ⟨kh + 1, by omega, kw, hkw, ?_, ?_, h2⟩
            · have he : hi + (kh + 1) = hi + 1 + kh := by omega
              rw [he]
              exact hcell
            · push_cast at h1 ⊢
              omega
        · rintro ⟨kh, hkh, kw, hkw, hcell, h1, h2⟩
          cases kh with
          | zero =>
            refine Or.inl ⟨kw, hkw, ?_, ?_, ?_⟩
            · simpa using hcell
            · push_cast at h1 ⊢
              omega
            · push_cast at h2 ⊢
              omega
          | succ m =>
            refine Or.inr ⟨m, by omega, kw, hkw, ?_, ?_, h2⟩
            · have he : hi + 1 + m = hi + (m + 1) := by omega
              rw [he]
              exact hcell
            · push_cast at h1 ⊢
              omega
      · simp

theorem renderPlaced_cell {level : Grid} {s : PlacedShape} (hw : level.wf)
    (hpr : 0 ≤ s.pos.1) (hpc : 0 ≤ s.pos.2) {i j : Nat}
    (hii : i < level.rows) (hjj : j < level.cols) :
    (renderPlaced level s).cell i j = (level.cell i j || coversB s i j) := by
  unfold renderPlaced
  rw [renderRows_cell hw hpr hpc hii hjj s.shape.rows 0 level rfl rfl rfl]
  congr 1
  by_cases hcov : coversB s i j = true
  · rw [hcov]
    obtain ⟨hi', wi', h1, h2, h3, h4, h5⟩ := coversB_iff.1 hcov
    apply decide_eq_true
    refine ⟨hi', h1, wi', h2, ?_, ?_, h5⟩
    · simpa using h3
    · push_cast at h4 ⊢
      omega
  · have hfalse : coversB s i j = false := by simpa using hcov
    rw [hfalse]
    apply decide_eq_false
    rintro ⟨kh, hkh, kw, hkw, hcell, h1, h2⟩
    apply hcov
    apply coversB_iff.2
    refine ⟨kh, kw, hkh, hkw, ?_, ?_, h2⟩
    · simpa using hcell
    · push_cast at h1 ⊢
      omega

theorem renderPlaced_dims (level : Grid) (s : PlacedShape) :
    (renderPlaced level s).rows = level.rows ∧ (renderPlaced level s).cols = level.cols ∧
    (renderPlaced level s).data.length = level.data.length :=
  renderRows_dims s.shape.rows 0 level

/-- Modelled from the spec's words for `render` (spec section 4.7): a fresh
grid equal to the level with the piece's occupied cells overlaid as true,
cells outside the level bounds silently ignored. -/
def renderOverlaySpec (level : Grid) (s : PlacedShape) : Grid :=
  Grid.ofFn level.rows level.cols (fun i j => level.cell i j || coversB s i j)

/-- Modelled from the spec's words (spec section 3, rotation invariant):
the 180-degree rotation of a grid, cell `(r, c)` holding original cell
`(rows - r - 1, cols - c - 1)`. -/
def rotate180 (s : Grid) : Grid :=
  Grid.ofFn s.rows s.cols (fun r c => s.cell (s.rows - r - 1) (s.cols - c - 1))

theorem rotate_rotate_eq_rotate180 (s : Grid) :
    Shape.rotate (Shape.rotate s) = rotate180 s := by
  have h1 : (Shape.rotate (Shape.rotate s)).wf := rotate_wf _
  have h2 : (rotate180 s).wf := ofFn_wf _ _ _
  apply grid_ext h1 h2 (by simp [rotate180]) (by simp [rotate180])
  intro i j hi hj
  have hi' : i < s.rows := by simpa using hi
  have hj' : j < s.cols := by simpa using hj
  rw [rotate_rotate_cell hi' hj']
  rw [show (rotate180 s).cell i j = s.cell (s.rows - i - 1) (s.cols - j - 1) from
    cell_ofFn hi' hj']

end RenderLemmas

section TickLemmas

theorem moveShape_some_shape {dir : Int × Int} {g : Game} {r : Game × Bool}
    (hP : g.state = State.Playing) (h : moveShape dir g = some r) :
    ∃ s, g.shape = some s := by
  unfold moveShape at h
  rw [if_pos hP] at h
  split at h
  · exact Option.noConfusion h
  · rename_i s hs
    exact ⟨s, hs⟩

/-- After any tick from a `Playing` state that returns, the current piece
exists and the state is `End` exactly when that piece failed the bounds
check or the collision check. -/
theorem tick_end_iff {pick : Nat} {g g' : Game} (hP : g.state = State.Playing)
    (h : tick pick g = some g') :
    ∃ ns, g'.shape = some ns ∧
      (g'.state = State.End ↔ (checkShapeOutOfBound g'.level ns = true ∨
        checkCollision g'.level ns = some true)) := by
  rw [tick_playing hP] at h
  split at h
  · exact Option.noConfusion h
  · rename_i g1 hmv
    obtain rfl : g1 = g' := Option.some_inj.1 h
    obtain ⟨s, hs⟩ := moveShape_some_shape hP hmv
    rcases moveShape_cases hP hs hmv with ⟨_, rfl, hoob, hcol⟩ | ⟨hfalse, _⟩
    · refine ⟨moveCandidate s (-1, 0), rfl, ?_⟩
      constructor
      · intro hend
        rw [hP] at hend
        exact State.noConfusion hend
      · rintro (hbad | hbad)
        · rw [hoob] at hbad
          exact Bool.noConfusion hbad
        · have := hcol.symm.trans hbad
          simp at this
    · exact absurd hfalse (by simp)
  · rename_i g1 hmv
    obtain ⟨s, hs⟩ := moveShape_some_shape hP hmv
    rcases moveShape_cases hP hs hmv with ⟨htrue, _⟩ | ⟨_, rfl⟩
    · exact absurd htrue (by simp)
    · split at h
      · exact Option.noConfusion h
      · obtain ⟨lvl, lvl2, ns, _, _, _, hlevel, hshape, hstate⟩ := tickLocked_cases h
        refine ⟨ns, hshape, ?_⟩
        rcases hstate with ⟨hend, hor⟩ | ⟨hplay, hoob2, hcol2⟩
        · refine ⟨fun _ => ?_, fun _ => hend⟩
          rw [hlevel]
          exact hor
        · constructor
          · intro hend
            rw [hplay] at hend
            exact State.noConfusion hend
          · rintro (hbad | hbad)
            · rw [hlevel, hoob2] at hbad
              exact Bool.noConfusion hbad
            · rw [hlevel] at hbad
              have := hcol2.symm.trans hbad
              simp at this

end TickLemmas

section Claims

/-- The square piece (catalog entry 0), as both drafts build it. -/
def squareShape : Grid := buildShape [[true, true], [true, true]]

/-- The J piece as `src/game.rs` builds it: listed rows
`[t,f,f; t,t,t]` reversed by the `shape!` macro. -/
def jShape : Grid := buildShape [[true, true, true], [true, false, false]]

/-- A 2-by-2 level whose top row (row 1) is entirely true and whose bottom
row is not: column-major cells `(0,0)=T, (1,0)=T, (0,1)=F, (1,1)=T`, rows
`[T,F]` (bottom) and `[T,T]` (top). -/
def gridC1 : Grid := ⟨2, 2, [true, true, false, true]⟩

/-- A 3-by-2 level with no full row. -/
def gridC8 : Grid := ⟨3, 2, [true, false, true, false, true, false]⟩

/-- C1: the spec says `eliminate_rows` on a grid whose full row is the
topmost row shifts content down and leaves the top row false; the code is
wrong: on this 2-by-2 level whose top row (row 1) is entirely true, the
rebuild loop reads source row index 2, whose flat index 4 is one past the
backing vector, so the program aborts (`none`) instead of returning the
shifted grid. -/
theorem c1_eliminate_top_row_panics :
    gridC1.wf ∧ rowFull gridC1 1 = true ∧ (∀ r, r < gridC1.rows → r ≠ 1 → rowFull gridC1 r = false) ∧
    eliminateRows gridC1 = none := by
  decide

/-- C3 counterexample: the spec's rotation formula `original (c, H - r - 1)`
(H the original height) disagrees with the code on the J piece at rotated
cell `(1, 1)`: the code reads original cell `(1, W - r - 1) = (1, 1)`,
which is false, while the spec formula reads `(1, H - r - 1) = (1, 0)`,
which is true. -/
theorem c3_counterexample :
    jShape ∈ shapesList ∧ jShape.rows = 2 ∧ jShape.cols = 3 ∧
    (Shape.rotate jShape).cell 1 1 ≠ jShape.cell 1 (jShape.rows - 1 - 1) := by
  decide

/-- C3 (amended): `rotate` produces a piece of height W and width H whose
cell `(r, c)`, for `r < W` and `c < H`, equals the original piece's cell
`(c, W - r - 1)` — with W the original width, not the original height as
the spec wrote. -/
theorem c3_rotate_formula (s : Grid) (r c : Nat) (hr : r < s.cols) (hc : c < s.rows) :
    (Shape.rotate s).rows = s.cols ∧ (Shape.rotate s).cols = s.rows ∧
    (Shape.rotate s).cell r c = s.cell c (s.cols - r - 1) :=
  ⟨rfl, rfl, rotate_cell hr hc⟩

/-- C3 witness: the amended formula evaluated on the J piece at rotated
cell `(1, 1)`. -/
theorem c3_rotate_formula_witness :
    (Shape.rotate jShape).rows = jShape.cols ∧ (Shape.rotate jShape).cols = jShape.rows ∧
    (Shape.rotate jShape).cell 1 1 = jShape.cell 1 (jShape.cols - 1 - 1) :=
  c3_rotate_formula jShape 1 1 (by decide) (by decide)

/-- C7: a rotation swaps width and height and preserves the count of true
cells, four rotations are the identity, and two rotations equal the
180-degree rotation of the original grid. -/
theorem c7_rotate_algebra (s : Grid) (hw : s.wf) :
    (Shape.rotate s).rows = s.cols ∧ (Shape.rotate s).cols = s.rows ∧
    (Shape.rotate s).count = s.count ∧
    Shape.rotate (Shape.rotate (Shape.rotate (Shape.rotate s))) = s ∧
    Shape.rotate (Shape.rotate s) = rotate180 s :=
  ⟨rfl, rfl, rotate_count s, rotate_four hw, rotate_rotate_eq_rotate180 s⟩

/-- C7 witness: the rotation algebra evaluated on the J piece. -/
theorem c7_rotate_algebra_witness :
    (Shape.rotate jShape).rows = jShape.cols ∧ (Shape.rotate jShape).cols = jShape.rows ∧
    (Shape.rotate jShape).count = jShape.count ∧
    Shape.rotate (Shape.rotate (Shape.rotate (Shape.rotate jShape))) = jShape ∧
    Shape.rotate (Shape.rotate jShape) = rotate180 jShape :=
  c7_rotate_algebra jShape (by decide)

/-- C8: `eliminate_rows` on a level in which no row is entirely true
returns the level unchanged. -/
theorem c8_no_full_row_identity (g : Grid)
    (h : ∀ r, r < g.rows → ∃ c, c < g.cols ∧ g.cell r c = false) :
    eliminateRows g = some g := by
  apply eliminateRows_no_full
  intro r hr hfull
  obtain ⟨c, hc, hfalse⟩ := h r hr
  rw [hfull c hc] at hfalse
  exact Bool.noConfusion hfalse

/-- C8 witness: a 3-by-2 level with no full row is returned unchanged. -/
theorem c8_no_full_row_identity_witness :
    eliminateRows gridC8 = some gridC8 :=
  c8_no_full_row_identity gridC8 (by decide)

/-- A playing game on an empty 4-by-6 level with the square piece at its
spawn position (2, 3); this is exactly the state `Start` produces from
`Game::new (4, 6)` with random pick 0. -/
def gameC5 : Game := ⟨some ⟨squareShape, (2, 3)⟩, State.Playing, Grid.new 4 6⟩

/-- C5: while `Playing`, a move commits the candidate position iff the
candidate is neither out of bounds nor colliding and otherwise leaves the
game unchanged, with the returned flag reporting acceptance; a rotation
commits the rotated piece at the unchanged position iff that rotated copy
is neither out of bounds nor colliding, and otherwise leaves the game
unchanged (`handle_event` itself always returns true). -/
theorem c5_move_rotate_commit (g : Game) (s : PlacedShape) (dir : Int × Int) (pick : Nat)
    (hw : g.level.wf) (hP : g.state = State.Playing) (hs : g.shape = some s) :
    (∃ ok, moveShape dir g =
        some ((if ok then { g with shape := some (moveCandidate s dir) } else g), ok) ∧
      (ok = true ↔ (checkShapeOutOfBound g.level (moveCandidate s dir) = false ∧
        checkCollision g.level (moveCandidate s dir) = some false))) ∧
    (∃ okr, handleEvent Event.Rotate pick g =
        some ((if okr then { g with shape := some (rotateCandidate s) } else g), true) ∧
      (okr = true ↔ (checkShapeOutOfBound g.level (rotateCandidate s) = false ∧
        checkCollision g.level (rotateCandidate s) = some false))) := by
  constructor
  · obtain ⟨b, hb⟩ := tryPlace_isSome (s := moveCandidate s dir) hw
    refine ⟨b, ?_, ?_⟩
    · rw [moveShape_playing hP hs, hb]
      cases b
      · simp [shape_eta hs]
      · simp
    · cases b
      · simp only [Bool.false_eq_true, false_iff]
        rintro ⟨h1, h2⟩
        have := (tryPlace_some_true_iff.2 ⟨h1, h2⟩).symm.trans hb
        simp at this
      · simp only [true_iff]
        exact tryPlace_some_true_iff.1 hb
  · obtain ⟨b, hb⟩ := tryPlace_isSome (s := rotateCandidate s) hw
    refine ⟨b, ?_, ?_⟩
    · rw [handleEvent_rotate_playing hP hs, hb]
      cases b
      · simp
      · simp
    · cases b
      · simp only [Bool.false_eq_true, false_iff]
        rintro ⟨h1, h2⟩
        have := (tryPlace_some_true_iff.2 ⟨h1, h2⟩).symm.trans hb
        simp at this
      · simp only [true_iff]
        exact tryPlace_some_true_iff.1 hb

/-- C5 witness: the commit-iff property evaluated on the freshly spawned
square piece moving left. -/
theorem c5_move_rotate_commit_witness :
    (∃ ok, moveShape (0, -1) gameC5 =
        some ((if ok then { gameC5 with
          shape := some (moveCandidate ⟨squareShape, (2, 3)⟩ (0, -1)) } else gameC5), ok) ∧
      (ok = true ↔
        (checkShapeOutOfBound gameC5.level (moveCandidate ⟨squareShape, (2, 3)⟩ (0, -1)) = false ∧
         checkCollision gameC5.level (moveCandidate ⟨squareShape, (2, 3)⟩ (0, -1)) = some false))) ∧
    (∃ okr, handleEvent Event.Rotate 0 gameC5 =
        some ((if okr then { gameC5 with
          shape := some (rotateCandidate ⟨squareShape, (2, 3)⟩) } else gameC5), true) ∧
      (okr = true ↔
        (checkShapeOutOfBound gameC5.level (rotateCandidate ⟨squareShape, (2, 3)⟩) = false ∧
         checkCollision gameC5.level (rotateCandidate ⟨squareShape, (2, 3)⟩) = some false))) :=
  c5_move_rotate_commit gameC5 ⟨squareShape, (2, 3)⟩ (0, -1) 0 (by decide) rfl rfl

/-- The square piece placed with a negative row offset. -/
def pieceC6 : PlacedShape := ⟨squareShape, (-1, 0)⟩

/-- A playing game on an empty 3-by-3 level with the piece at row offset
-1: its piece row 1 lies on level row 0, in bounds. -/
def gameC6 : Game := ⟨some pieceC6, State.Playing, Grid.new 3 3⟩

/-- C6 counterexample: with a negative row offset the claim says the
in-bounds piece cells are still overlaid, but the render loop breaks at
the first (wrapped, huge) row cast, ignoring even the in-bounds piece
cell at level cell (0, 0): the code leaves it false where the spec
overlay has it true. -/
theorem c6_counterexample :
    pieceC6.pos.1 < 0 ∧ coversB pieceC6 0 0 = true ∧
    (Game.render gameC6).map (fun m => m.cell 0 0) = some false ∧
    (renderOverlaySpec gameC6.level pieceC6).cell 0 0 = true := by
  decide

/-- C6 (amended): when the current piece's position offsets are both
non-negative, `render` returns a fresh grid equal to the level with every
occupied piece cell at an in-bounds level position overlaid as true and
every out-of-bounds piece cell ignored (the overlay grid of the spec),
and the engine itself is untouched (`render` is a pure function of the
game).  With a negative offset the loop's `break` instead discards the
remaining piece cells, including in-bounds ones. -/
theorem c6_render_overlay (g : Game) (s : PlacedShape) (hw : g.level.wf)
    (hs : g.shape = some s) (hpr : 0 ≤ s.pos.1) (hpc : 0 ≤ s.pos.2) :
    Game.render g = some (renderOverlaySpec g.level s) := by
  unfold Game.render
  rw [hs]
  simp only [Option.map_some']
  congr 1
  obtain ⟨hd1, hd2, hd3⟩ := renderPlaced_dims g.level s
  have hwr : (renderPlaced g.level s).wf := by
    unfold Grid.wf
    rw [hd1, hd2, hd3]
    exact hw
  have hwo : (renderOverlaySpec g.level s).wf := ofFn_wf _ _ _
  apply grid_ext hwr hwo (by rw [hd1]; rfl) (by rw [hd2]; rfl)
  intro i j hi hj
  have hi' : i < g.level.rows := by rwa [hd1] at hi
  have hj' : j < g.level.cols := by rwa [hd2] at hj
  rw [renderPlaced_cell hw hpr hpc hi' hj']
  rw [show (renderOverlaySpec g.level s).cell i j = (g.level.cell i j || coversB s i j) from
    cell_ofFn hi' hj']

/-- C6 witness: the overlay equality evaluated on the freshly spawned
square piece. -/
theorem c6_render_overlay_witness :
    Game.render gameC5 = some (renderOverlaySpec gameC5.level ⟨squareShape, (2, 3)⟩) :=
  c6_render_overlay gameC5 ⟨squareShape, (2, 3)⟩ (by decide) rfl (by decide) (by decide)

/-- C9: in every state reachable from `Game::new (R, C)` with R at least 4
and C at least 6, through any sequence of events and ticks that complete
without aborting, whenever the state is `Playing` a current piece exists,
lies entirely within the level bounds, and none of its occupied cells
overlaps a true level cell. -/
theorem c9_reachable_playing_invariant (R C : Nat) (hR : 4 ≤ R) (hC : 6 ≤ C) (g : Game)
    (hreach : Reach (Game.new R C) g) (hP : g.state = State.Playing) :
    ∃ s, g.shape = some s ∧
      0 ≤ s.pos.1 ∧ s.pos.1 + s.shape.rows ≤ (g.level.rows : Int) ∧
      0 ≤ s.pos.2 ∧ s.pos.2 + s.shape.cols ≤ (g.level.cols : Int) ∧
      (∀ hi wi, hi < s.shape.rows → wi < s.shape.cols → s.shape.cell hi wi = true →
        g.level.cell (s.pos.1 + hi).toNat (s.pos.2 + wi).toNat = false) := by
  obtain ⟨hw, _, _, hpiece⟩ := inv_reach hR hC hreach
  obtain ⟨s, hs, hoob, hcol⟩ := hpiece (Or.inl hP)
  obtain ⟨h1, h2, h3, h4⟩ := oob_false_iff.1 hoob
  exact ⟨s, hs, h1, h2, h3, h4, checkCollision_false_cells hw hoob hcol⟩

/-- C9 witness: the invariant evaluated on the state reached by issuing
`Start` (with pick 0) on a fresh 4-by-6 game. -/
theorem c9_reachable_playing_invariant_witness :
    ∃ s, gameC5.shape = some s ∧
      0 ≤ s.pos.1 ∧ s.pos.1 + s.shape.rows ≤ (gameC5.level.rows : Int) ∧
      0 ≤ s.pos.2 ∧ s.pos.2 + s.shape.cols ≤ (gameC5.level.cols : Int) ∧
      (∀ hi wi, hi < s.shape.rows → wi < s.shape.cols → s.shape.cell hi wi = true →
        gameC5.level.cell (s.pos.1 + hi).toNat (s.pos.2 + wi).toNat = false) :=
  c9_reachable_playing_invariant 4 6 (by decide) (by decide) gameC5
    (Reach.stepEvent Reach.refl
      (show handleEvent Event.Start 0 (Game.new 4 6) = some (gameC5, true) by decide))
    rfl

/-- C10: the two drafts define the same engine.  The seven shapes of
`src/game.rs` (built by the `shape!` macro, which reverses the listed row
order before handing the rows to `matrix!`) are cell-for-cell equal to the
seven direct `matrix!` literals of `src/main.rs`, and since the remaining
engine code of the two drafts is textually identical (one shared
embedding, parameterized only by the catalog; `render` does not consult
the catalog at all), `handle_event` and `tick` coincide on every state,
event, and random pick, hence on every input sequence. -/
theorem c10_drafts_equal :
    gameCatalog = mainCatalog ∧
    (∀ e pick g, handleEventWith gameCatalog e pick g = handleEventWith mainCatalog e pick g) ∧
    (∀ pick g, tickWith gameCatalog pick g = tickWith mainCatalog pick g) := by
  have hcat : gameCatalog = mainCatalog := by decide
  refine ⟨hcat, ?_, ?_⟩
  · intro e pick g
    rw [hcat]
  · intro pick g
    rw [hcat]

/-- A 4-by-6 level with exactly one true cell at `(2, 3)`, where the
square's spawn position lands (column-major flat index 14). -/
def levelC2 : Grid := ⟨4, 6, (List.range 24).map (fun k => k == 14)⟩

/-- C2 counterexample: when the square's initial spawn position collides,
the spawn loop increments the row and its next collision check reads the
level at row index 4 = rows, outside the grid bounds — the claim says
every level access of the loop stays within bounds. -/
theorem c2_counterexample :
    checkCollision levelC2 (spawnStart 0 levelC2) = some true ∧
    ((4 : Int), (3 : Int)) ∈ spawnAccesses 0 levelC2 ∧
    ¬ ((4 : Int) < (levelC2.rows : Int)) := by
  decide

/-- C2 (amended): when the spawn's initial centered position does not
collide (always the case after `reset`, and the engine's steady state),
the spawn loop performs no increment, every level access it makes is
within the level bounds, the spawned piece is in bounds, and none of its
occupied cells overlaps a true level cell; and after any `tick` from a
`Playing` state that returns, the state is `End` exactly when the current
piece is out of bounds or colliding.  (When the initial position does
collide, the loop's later checks read level rows at and beyond `rows` —
see the counterexample.) -/
theorem c2_spawn_safety :
    (∀ (level : Grid) (pick : Nat), level.wf → 4 ≤ level.rows → 6 ≤ level.cols →
      checkCollision level (spawnStart pick level) = some false →
      createNewShapeWith shapesList pick level = some (spawnStart pick level) ∧
      (∀ q ∈ spawnAccesses pick level,
        0 ≤ q.1 ∧ q.1 < (level.rows : Int) ∧ 0 ≤ q.2 ∧ q.2 < (level.cols : Int)) ∧
      (∀ hi wi, hi < (spawnStart pick level).shape.rows →
        wi < (spawnStart pick level).shape.cols →
        (spawnStart pick level).shape.cell hi wi = true →
        level.cell ((spawnStart pick level).pos.1 + hi).toNat
          ((spawnStart pick level).pos.2 + wi).toNat = false)) ∧
    (∀ (pick : Nat) (g g' : Game), g.state = State.Playing → tick pick g = some g' →
      ∃ ns, g'.shape = some ns ∧
        (g'.state = State.End ↔ (checkShapeOutOfBound g'.level ns = true ∨
          checkCollision g'.level ns = some true))) := by
  constructor
  · intro level pick hw hr hc hcol
    have hoob := spawnStart_oob_false hr hc pick
    have hrows := spawnStart_shape_le hr pick
    refine ⟨createNewShape_no_collision hrows hcol, ?_,
      checkCollision_false_cells hw hoob hcol⟩
    intro q hq
    rw [spawnAccesses_no_collision hrows hcol] at hq
    obtain ⟨p, hp, rfl⟩ := collideTrace_subset _ q hq
    rw [mem_scanPairs] at hp
    obtain ⟨h1, h2, h3, h4⟩ := oob_false_iff.1 hoob
    obtain ⟨hp1, hp2⟩ := hp
    refine ⟨?_, ?_, ?_, ?_⟩
    · show 0 ≤ (spawnStart pick level).pos.1 + p.1
      omega
    · show (spawnStart pick level).pos.1 + p.1 < (level.rows : Int)
      omega
    · show 0 ≤ (spawnStart pick level).pos.2 + p.2
      omega
    · show (spawnStart pick level).pos.2 + p.2 < (level.cols : Int)
      omega
  · intro pick g g' hP h
    exact tick_end_iff hP h

/-- The game `tick` advances after a collision-free move down from the
spawned square of `gameC5`. -/
def gameC5down : Game := ⟨some ⟨squareShape, (1, 3)⟩, State.Playing, Grid.new 4 6⟩

/-- C2 witness: the amended spawn safety evaluated on an empty 4-by-6
level with pick 0, and the tick End-check evaluated on the freshly
spawned game. -/
theorem c2_spawn_safety_witness :
    (createNewShapeWith shapesList 0 (Grid.new 4 6) = some (spawnStart 0 (Grid.new 4 6)) ∧
      (∀ q ∈ spawnAccesses 0 (Grid.new 4 6),
        0 ≤ q.1 ∧ q.1 < (((Grid.new 4 6) : Grid).rows : Int) ∧
        0 ≤ q.2 ∧ q.2 < (((Grid.new 4 6) : Grid).cols : Int)) ∧
      (∀ hi wi, hi < (spawnStart 0 (Grid.new 4 6)).shape.rows →
        wi < (spawnStart 0 (Grid.new 4 6)).shape.cols →
        (spawnStart 0 (Grid.new 4 6)).shape.cell hi wi = true →
        (Grid.new 4 6).cell ((spawnStart 0 (Grid.new 4 6)).pos.1 + hi).toNat
          ((spawnStart 0 (Grid.new 4 6)).pos.2 + wi).toNat = false)) ∧
    (∃ ns, gameC5down.shape = some ns ∧
      (gameC5down.state = State.End ↔ (checkShapeOutOfBound gameC5down.level ns = true ∨
        checkCollision gameC5down.level ns = some true))) :=
  ⟨c2_spawn_safety.1 (Grid.new 4 6) 0 (by decide) (by decide) (by decide) (by decide),
   c2_spawn_safety.2 0 gameC5 gameC5down rfl (by decide)⟩

/-- A playing game about to lock: the square piece resting on the floor
of an entirely full-to-be 2-by-2 level. -/
def gameC4 : Game := ⟨some ⟨squareShape, (0, 0)⟩, State.Playing, Grid.new 2 2⟩

/-- C4 counterexample: on this Playing state the downward move is
rejected; locking fills the whole 2-by-2 level, so both rows (including
the top one) become full and the elimination rebuild aborts on an
out-of-range read — tick produces no state at all where the claim says it
eliminates full rows, spawns a piece and sets the state. -/
theorem c4_counterexample :
    gameC4.state = State.Playing ∧
    moveShape (-1, 0) gameC4 = some (gameC4, false) ∧
    tick 0 gameC4 = none := by
  decide

/-- C4 (amended): tick is a no-op unless `Playing`; when `Playing` it
first attempts the downward move and stops with the moved state if
accepted; if the move was rejected then, whenever the tick call completes
(it aborts when locking leaves the top row full, or when a colliding
spawn scans past the grid — see the counterexample), it locked the piece
by setting the level cell at every occupied piece cell's cast position to
true and never clearing any cell, eliminated full rows, spawned a new
piece, and set the state to `End` iff that piece is out of bounds or
colliding. -/
theorem c4_tick_structure (pick : Nat) (g : Game) :
    (g.state ≠ State.Playing → tick pick g = some g) ∧
    (∀ s, g.state = State.Playing → g.shape = some s →
      (∀ g1, moveShape (-1, 0) g = some (g1, true) → tick pick g = some g1) ∧
      (moveShape (-1, 0) g = some (g, false) → ∀ g', tick pick g = some g' →
        ∃ lvl lvl2 ns,
          lockShape g.level s = some lvl ∧
          (∀ i j, g.level.cell i j = true → lvl.cell i j = true) ∧
          (∀ hi wi, hi < s.shape.rows → wi < s.shape.cols → s.shape.cell hi wi = true →
            lvl.cell (usizeOf (s.pos.1 + hi)) (usizeOf (s.pos.2 + wi)) = true) ∧
          eliminateRows lvl = some lvl2 ∧
          createNewShapeWith shapesList pick lvl2 = some ns ∧
          g'.shape = some ns ∧ g'.level = lvl2 ∧
          (g'.state = State.End ↔
            (checkShapeOutOfBound lvl2 ns = true ∨ checkCollision lvl2 ns = some true)))) := by
  constructor
  · exact fun h => tick_not_playing h
  · intro s hP hs
    constructor
    · intro g1 hmv
      rw [tick_playing hP, hmv]
    · intro hmv g' h
      have htick : tick pick g = tickLocked shapesList pick g.level s := by
        rw [tick_playing hP, hmv]
        show (match g.shape with
              | none => none
              | some s => tickLocked shapesList pick g.level s) =
            tickLocked shapesList pick g.level s
        rw [hs]
      rw [htick] at h
      obtain ⟨lvl, lvl2, ns, hlock, helim, hnew, hlevel, hshape, hstate⟩ := tickLocked_cases h
      refine ⟨lvl, lvl2, ns, hlock, ?_, ?_, helim, hnew, hshape, hlevel, ?_⟩
      · intro i j hcell
        exact lockFold_mono hlock hcell
      · intro hi wi hhi hwi hcell
        exact lockFold_writes hlock (mem_scanPairs.2 ⟨hhi, hwi⟩) hcell
      · rcases hstate with ⟨hend, hor⟩ | ⟨hplay, hoob2, hcol2⟩
        · exact ⟨fun _ => hor, fun _ => hend⟩
        · constructor
          · intro hEnd
            rw [hplay] at hEnd
            exact State.noConfusion hEnd
          · rintro (hbad | hbad)
            · rw [hoob2] at hbad
              exact Bool.noConfusion hbad
            · have := hcol2.symm.trans hbad
              simp at this

/-- The square piece resting on the floor of an empty 4-by-6 level. -/
def pieceC4W : PlacedShape := ⟨squareShape, (0, 0)⟩

/-- A playing game whose next tick locks the square into the floor and
completes normally. -/
def gameC4W : Game := ⟨some pieceC4W, State.Playing, Grid.new 4 6⟩

/-- The state `tick 0 gameC4W` produces: square locked into the bottom
two rows of columns 0 and 1, no full rows, and a fresh square spawned at
`(2, 3)`. -/
def tickResultC4W : Game :=
  ⟨some ⟨squareShape, (2, 3)⟩, State.Playing,
   ⟨4, 6, [true, true, false, false, true, true] ++ List.replicate 18 false⟩⟩

/-- C4 witness: the amended tick structure evaluated on a lock that
completes. -/
theorem c4_tick_structure_witness :
    ∃ lvl lvl2 ns,
      lockShape gameC4W.level pieceC4W = some lvl ∧
      (∀ i j, gameC4W.level.cell i j = true → lvl.cell i j = true) ∧
      (∀ hi wi, hi < pieceC4W.shape.rows → wi < pieceC4W.shape.cols →
        pieceC4W.shape.cell hi wi = true →
        lvl.cell (usizeOf (pieceC4W.pos.1 + hi)) (usizeOf (pieceC4W.pos.2 + wi)) = true) ∧
      eliminateRows lvl = some lvl2 ∧
      createNewShapeWith shapesList 0 lvl2 = some ns ∧
      tickResultC4W.shape = some ns ∧ tickResultC4W.level = lvl2 ∧
      (tickResultC4W.state = State.End ↔
        (checkShapeOutOfBound lvl2 ns = true ∨ checkCollision lvl2 ns = some true)) :=
  ((c4_tick_structure 0 gameC4W).2 pieceC4W rfl rfl).2 (by decide) tickResultC4W (by decide)

end Claims

end Tetris
